import Mathlib

/-!
Verification development for the app-creator agent control plane
(`keyboard_server.js`, `keyboard_utils/browser_automation.js`).

The JavaScript source is shallowly embedded: JS regular expressions become a
small executable matcher over an explicit AST, Node `path` functions are
modelled segment-wise over strings, the filesystem is an explicit state
(association list of resolved absolute path to contents, a directory set and
the backup directory), and thrown `Error`s become an explicit error type.
Wall-clock quantities (ISO timestamps, execution time) and the MD5 function of
the external `crypto` library are environment parameters of the model.
-/

deriving instance DecidableEq for Except

namespace S2P

/-! ## Regular-expression engine

JS regexes used by the source are embedded as an AST.  `^` at the start of a
pattern is represented by the `anchoredStart` flag (matching starts at
position 0 instead of searching every position, as `RegExp.test` does), `$`
becomes the `eos` node, `(?!...)` becomes `nla`.  The `i` flag is compiled
into case-insensitive character predicates.  Matching is a backtracking
continuation-passing matcher with a fuel argument large enough for the
patterns at hand; star iterations must consume input.
-/

inductive Re where
  | emp : Re
  | eps : Re
  | eos : Re
  | sym (p : Char → Bool) : Re
  | cat (r1 r2 : Re) : Re
  | alt (r1 r2 : Re) : Re
  | star (r : Re) : Re
  | nla (r : Re) : Re

def reMatch : Nat → Re → List Char → (List Char → Bool) → Bool
  | 0, _, _, _ => false
  | _ + 1, .emp, _, _ => false
  | _ + 1, .eps, s, k => k s
  | _ + 1, .eos, s, k => s.isEmpty && k s
  | _ + 1, .sym p, s, k =>
    match s with
    | [] => false
    | c :: rest => p c && k rest
  | f + 1, .cat r1 r2, s, k => reMatch f r1 s (fun s1 => reMatch f r2 s1 k)
  | f + 1, .alt r1 r2, s, k => reMatch f r1 s k || reMatch f r2 s k
  | f + 1, .star r, s, k =>
    k s || reMatch f r s (fun s1 => decide (s1.length < s.length) && reMatch f (.star r) s1 k)
  | f + 1, .nla r, s, k => !(reMatch f r s (fun _ => true)) && k s

def reSize : Re → Nat
  | .emp => 1
  | .eps => 1
  | .eos => 1
  | .sym _ => 1
  | .cat r1 r2 => reSize r1 + reSize r2 + 1
  | .alt r1 r2 => reSize r1 + reSize r2 + 1
  | .star r => reSize r + 1
  | .nla r => reSize r + 1

def fuelFor (r : Re) (n : Nat) : Nat := (reSize r + 2) * (n + 2)

def reSearch (f : Nat) (r : Re) : List Char → Bool
  | [] => reMatch f r [] (fun _ => true)
  | c :: t => reMatch f r (c :: t) (fun _ => true) || reSearch f r t

structure Pat where
  anchoredStart : Bool
  re : Re

def patTest (p : Pat) (s : String) : Bool :=
  let cs := s.data
  let f := fuelFor p.re cs.length
  if p.anchoredStart then reMatch f p.re cs (fun _ => true) else reSearch f p.re cs

/-! Character classes and combinators used to transcribe the source patterns. -/

def wordChar (c : Char) : Bool := c.isAlphanum || c == '_'

def spaceChar (c : Char) : Bool :=
  c == ' ' || c == '\t' || c == '\n' || c == '\r' || c == '\x0b' || c == '\x0c'

def aposChar : Char := Char.ofNat 39

def chr (c : Char) : Re := .sym (fun x => x == c)

def chrCI (c : Char) : Re := .sym (fun x => x.toLower == c.toLower)

def strR (s : String) : Re := s.data.foldr (fun c r => .cat (chr c) r) .eps

def strCI (s : String) : Re := s.data.foldr (fun c r => .cat (chrCI c) r) .eps

def seqR (l : List Re) : Re := l.foldr .cat .eps

def altsR (l : List Re) : Re := l.foldr .alt .emp

def altStrs (l : List String) : Re := altsR (l.map strR)

def altStrsCI (l : List String) : Re := altsR (l.map strCI)

def optR (r : Re) : Re := .alt r .eps

def many1 (r : Re) : Re := .cat r (.star r)

def dotAny : Re := .sym (fun c => !(c == '\n'))

def ws1 : Re := many1 (.sym spaceChar)

def ws0 : Re := .star (.sym spaceChar)

def cls (extra : String) : Re := .sym (fun c => extra.data.contains c)

def wcls (extra : String) : Re := .sym (fun c => wordChar c || extra.data.contains c)

def digitR : Re := .sym Char.isDigit

/-! ## Node path functions

posix-flavoured `path.normalize`, `path.basename`, `path.resolve` modelled on
segment lists obtained by splitting on `/`.
-/

/-- Split on `/`, dropping empty segments, at the character level. -/
def splitSegs (cur : List Char) : List Char → List String
  | [] => if cur.isEmpty then [] else [String.mk cur.reverse]
  | c :: rest =>
    if c == '/' then
      if cur.isEmpty then splitSegs [] rest else String.mk cur.reverse :: splitSegs [] rest
    else splitSegs (c :: cur) rest

def splitPath (s : String) : List String := splitSegs [] s.data

/-- Model of `String.prototype.startsWith` at the character level. -/
def startsWithS (s pre : String) : Bool := pre.data.isPrefixOf s.data

/-- Model of a trailing-substring test at the character level. -/
def endsWithS (s suf : String) : Bool := suf.data.isSuffixOf s.data

/-- Model of `String.prototype.trim`. -/
def trimS (s : String) : String :=
  String.mk (((s.data.dropWhile spaceChar).reverse.dropWhile spaceChar).reverse)

def dropS (s : String) (n : Nat) : String := String.mk (s.data.drop n)

/-- Core of relative normalization: `.` removed, `..` pops a previous segment
unless none is available (then it is kept), as in `path.normalize` on a
relative path.  The accumulator is held in reverse order. -/
def normRelAux (acc : List String) : List String → List String
  | [] => acc.reverse
  | s :: rest =>
    if s == "." then normRelAux acc rest
    else if s == ".." then
      match acc with
      | [] => normRelAux [".."] rest
      | a :: as => if a == ".." then normRelAux (".." :: a :: as) rest else normRelAux as rest
    else normRelAux (s :: acc) rest

/-- Core of absolute normalization: as `normRelAux`, but `..` at the root is
discarded (as `path.resolve` does). -/
def normAbsAux (acc : List String) : List String → List String
  | [] => acc.reverse
  | s :: rest =>
    if s == "." then normAbsAux acc rest
    else if s == ".." then
      match acc with
      | [] => normAbsAux [] rest
      | _ :: as => normAbsAux as rest
    else normAbsAux (s :: acc) rest

/-- Model of posix `path.normalize` on strings, preserving a trailing slash
as Node does. -/
def normalizeStr (p : String) : String :=
  let abs := startsWithS p "/"
  let core := if abs then normAbsAux [] (splitPath p) else normRelAux [] (splitPath p)
  let body := String.intercalate "/" core
  let base := if abs then "/" ++ body else if body == "" then "." else body
  if endsWithS p "/" && base != "/" && base != "." && !(endsWithS base "/") then base ++ "/"
  else base

/-- Model of posix `path.basename`. -/
def basenameStr (p : String) : String := ((splitPath p).getLast?).getD ""

/-- Model of `path.resolve(cwd, p)` at the segment level, where `W` is the
segment list of the absolute working directory. -/
def resolveSegs (W : List String) (p : String) : List String :=
  if startsWithS p "/" then normAbsAux [] (splitPath p) else normAbsAux [] (W ++ splitPath p)

/-- Render an absolute segment list as a string. -/
def renderAbs (segs : List String) : String := "/" ++ String.intercalate "/" segs

/-- The resolved absolute path of `p` against working directory `W`. -/
def resolveRender (W : List String) (p : String) : String := renderAbs (resolveSegs W p)

/-- The resolved path lies under the directory rendered from `W` in the
filesystem sense: it is the directory itself or a proper descendant.  (This is
the semantic notion the specification's confinement property refers to; the
source only checks a string prefix.) -/
def isUnder (root full : String) : Bool := full == root || startsWithS full (root ++ "/")

/-! ## FILE_PROTECTION_CONFIG -/

def criticalSystemFiles : List String := ["keyboard_server.js", "server.js"]

def protectedFiles : List String :=
  ["keyboard_server.js", "server.js", ".env", ".env.local", ".env.development",
   ".env.production", ".gitignore"]

def protectedDirectories : List String :=
  ["keyboard_utils/", "keyboard_utils/retrieve_resources/", ".file-backups/", ".git/",
   ".devcontainer/"]

/-- Transcription of `FILE_PROTECTION_CONFIG.allowedProjectPaths`, one entry
per source regex, in source order. -/
def allowedProjectPaths : List Pat :=
  [ ⟨true, strR "src/"⟩,
    ⟨true, strR "public/"⟩,
    ⟨true, strR "pages/"⟩,
    ⟨true, strR "app/"⟩,
    ⟨true, strR "components/"⟩,
    ⟨true, strR "styles/"⟩,
    ⟨true, strR "lib/"⟩,
    ⟨true, seqR [strR "utils/", .nla (strR "keyboard")]⟩,
    ⟨true, strR "hooks/"⟩,
    ⟨true, strR "types/"⟩,
    ⟨true, strR "__tests__/"⟩,
    ⟨true, strR "docs/"⟩,
    ⟨true, strR "config/"⟩,
    ⟨true, strR "middleware/"⟩,
    ⟨true, strR "models/"⟩,
    ⟨true, strR "routes/"⟩,
    ⟨true, strR "services/"⟩,
    ⟨true, strR "controllers/"⟩,
    ⟨false, seqR [chrCI '.', altStrsCI ["md", "txt", "json"], .eos]⟩,
    ⟨true, seqR [strR "tailwind.config.", altStrs ["js", "ts"], .eos]⟩,
    ⟨true, seqR [strR "next.config.", altStrs ["js", "ts"], .eos]⟩,
    ⟨true, seqR [strR "tsconfig.json", .eos]⟩,
    ⟨true, seqR [strR "postcss.config.", altStrs ["js", "ts"], .eos]⟩,
    ⟨true, seqR [strR "vite.config.", altStrs ["js", "ts"], .eos]⟩,
    ⟨true, seqR [strR "webpack.config.", altStrs ["js", "ts"], .eos]⟩,
    ⟨true, seqR [strR "babel.config.", altStrs ["js", "json"], .eos]⟩,
    ⟨true, seqR [strR ".eslintrc.", altStrs ["js", "json"], .eos]⟩,
    ⟨true, seqR [strR ".prettierrc", optR (seqR [chr '.', altStrs ["js", "json"]]), .eos]⟩,
    ⟨true, seqR [strR "jest.config.", altStrs ["js", "ts"], .eos]⟩,
    ⟨true, seqR [strR "vitest.config.", altStrs ["js", "ts"], .eos]⟩ ]

def credentialFiles : List String :=
  [".env", ".env.local", ".env.development", ".env.production", ".env.test", ".env.staging",
   "credentials.json", "secrets.json", "config.json", "private.key", "id_rsa", "id_ed25519",
   ".ssh", ".aws", ".gcp"]

/-- Transcription of `FILE_PROTECTION_CONFIG.credentialPatterns`, source
order; all are case-insensitive unanchored searches. -/
def credentialPatterns : List Pat :=
  [ ⟨false, seqR [strCI ".env", .alt (chrCI '.') .eos]⟩,
    ⟨false, strCI "credential"⟩,
    ⟨false, strCI "secret"⟩,
    ⟨false, strCI "password"⟩,
    ⟨false, strCI "token"⟩,
    ⟨false, seqR [strCI "key", .eos]⟩,
    ⟨false, seqR [strCI ".pem", .eos]⟩,
    ⟨false, seqR [strCI ".p12", .eos]⟩,
    ⟨false, seqR [strCI ".pfx", .eos]⟩,
    ⟨false, strCI "wallet."⟩,
    ⟨false, strCI "keystore"⟩ ]

def maxBackups : Nat := 10

def maxFileSize : Nat := 10 * 1024 * 1024

/-! ## Path classification -/

inductive PathLevel where
  | CRITICAL
  | SYSTEM_DIRECTORY
  | PROJECT_FILE
  | SYSTEM_FILE
deriving DecidableEq

structure PathAnalysis where
  allowed : Bool
  level : PathLevel
  reason : String
deriving DecidableEq

/-- Model of `analyzeFilePath`: critical basenames first, then the project
allowlist, then the protected-directory denylist, else a cautious default. -/
def analyzeFilePath (filePath : String) : PathAnalysis :=
  let normalizedPath := normalizeStr filePath
  let fileName := basenameStr filePath
  if criticalSystemFiles.contains fileName then
    ⟨false, .CRITICAL, "Critical system file cannot be modified"⟩
  else if allowedProjectPaths.any (fun pat => patTest pat normalizedPath) then
    ⟨true, .PROJECT_FILE, "Allowed project development file"⟩
  else
    match protectedDirectories.find? (fun d => startsWithS normalizedPath d) with
    | some d => ⟨false, .SYSTEM_DIRECTORY, "File in protected system directory: " ++ d⟩
    | none => ⟨true, .SYSTEM_FILE, "System file - requires careful handling"⟩

def isProtectedFile (filePath : String) : Bool := protectedFiles.contains (basenameStr filePath)

def isCriticalFile (filePath : String) : Bool :=
  criticalSystemFiles.contains (basenameStr filePath)

def isCredentialFile (filePath : String) : Bool :=
  let fileName := basenameStr filePath
  credentialFiles.contains fileName ||
    credentialPatterns.any (fun pat => patTest pat fileName)

/-! ## Command validation

`SAFE_COMMAND_PATTERNS` and `BLOCKED_PATTERNS`, one `Pat` per source regex in
source order.  Safe patterns are `^...$` anchored; blocked patterns are
unanchored substring searches.
-/

def optRest : Re := optR (seqR [ws1, .star dotAny])

def npmPats : List Pat :=
  [ ⟨true, seqR [strR "npm", ws1,
      altStrs ["install", "i", "add", "remove", "uninstall", "update", "outdated", "audit",
        "fund"], optRest, .eos]⟩,
    ⟨true, seqR [strR "npm", ws1, strR "run", ws1, many1 (wcls ":-"), optRest, .eos]⟩,
    ⟨true, seqR [strR "npm", ws1,
      altStrs ["start", "build", "test", "dev", "lint", "preview", "serve"], optRest, .eos]⟩,
    ⟨true, seqR [strR "npm", ws1, strR "ci", optRest, .eos]⟩ ]

def yarnPats : List Pat :=
  [ ⟨true, seqR [strR "yarn", ws1,
      altStrs ["add", "remove", "install", "upgrade", "outdated", "audit"], optRest, .eos]⟩,
    ⟨true, seqR [strR "yarn", ws1, many1 (wcls ":-"), optRest, .eos]⟩,
    ⟨true, seqR [strR "yarn", ws1,
      altStrs ["start", "build", "test", "dev", "lint", "preview", "serve"], optRest, .eos]⟩,
    ⟨true, seqR [strR "yarn", optR (seqR [ws1, strR "install"]), .eos]⟩ ]

def pnpmPats : List Pat :=
  [ ⟨true, seqR [strR "pnpm", ws1,
      altStrs ["add", "remove", "install", "update", "outdated", "audit"], optRest, .eos]⟩,
    ⟨true, seqR [strR "pnpm", ws1, many1 (wcls ":-"), optRest, .eos]⟩,
    ⟨true, seqR [strR "pnpm", ws1,
      altStrs ["start", "build", "test", "dev", "lint", "preview", "serve"], optRest, .eos]⟩,
    ⟨true, seqR [strR "pnpm", ws1, strR "i", optRest, .eos]⟩ ]

def generatorsPats : List Pat :=
  [ ⟨true, seqR [strR "npx", ws1, strR "create-", many1 (wcls "@/-"),
      optR (seqR [chr '@', many1 (wcls ".-")]), optRest, .eos]⟩,
    ⟨true, seqR [strR "npm", ws1, strR "create", ws1, many1 (wcls "@/-"), optRest, .eos]⟩,
    ⟨true, seqR [strR "yarn", ws1, strR "create", ws1, many1 (wcls "@/-"), optRest, .eos]⟩,
    ⟨true, seqR [strR "pnpm", ws1, strR "create", ws1, many1 (wcls "@/-"), optRest, .eos]⟩ ]

def toolsPats : List Pat :=
  [ ⟨true, seqR [strR "npx", ws1, many1 (wcls "@/-"),
      .star (seqR [ws1, .star (wcls "@/.=:-")]), .eos]⟩,
    ⟨true, seqR [strR "node", ws1, many1 (wcls "./-"), strR ".js", optRest, .eos]⟩,
    ⟨true, seqR [strR "npx", ws1, altStrs ["next", "vite", "react-scripts", "storybook"],
      ws1, many1 (wcls "-"), optRest, .eos]⟩ ]

def nameArgCls : Re :=
  .sym (fun c => wordChar c || c == '.' || c == '*' || c == '-' || c == '"' || c == aposChar)

def echoCls : Re :=
  .sym (fun c =>
    wordChar c || spaceChar c || c == '"' || c == aposChar || c == '.' || c == '-')

def fileOpsPats : List Pat :=
  [ ⟨true, seqR [strR "ls", optR (seqR [ws1, chr '-', many1 (cls "la")]), optRest, .eos]⟩,
    ⟨true, seqR [strR "cat", ws1, many1 (wcls "./-"),
      optR (seqR [chr '.', altStrs ["js", "ts", "tsx", "jsx", "json", "md", "txt", "css",
        "scss", "sass", "less", "html", "xml", "yml", "yaml", "toml", "env"]]), .eos]⟩,
    ⟨true, seqR [strR "cat", ws1, many1 (wcls "./-"), ws0, chr '|', ws0, strR "head",
      optR (seqR [ws1, strR "-n", ws1, many1 digitR]), .star dotAny, .eos]⟩,
    ⟨true, seqR [strR "cat", ws1, many1 (wcls "./-"), ws0, chr '|', ws0, strR "tail",
      optR (seqR [ws1, strR "-n", ws1, many1 digitR]), .star dotAny, .eos]⟩,
    ⟨true, seqR [strR "cat", ws1, many1 (wcls "./-"), ws0, chr '|', ws0, strR "grep",
      ws1, many1 (wcls ".-"), .star dotAny, .eos]⟩,
    ⟨true, seqR [strR "head", ws1, optR (seqR [strR "-n", ws1, many1 digitR, ws1]),
      many1 (wcls "./-"), .eos]⟩,
    ⟨true, seqR [strR "tail", ws1, optR (seqR [strR "-n", ws1, many1 digitR, ws1]),
      many1 (wcls "./-"), .eos]⟩,
    ⟨true, seqR [strR "tail", ws1, strR "-f", ws1, many1 (wcls "./-"), .eos]⟩,
    ⟨true, seqR [strR "grep", ws1, optR (seqR [chr '-', many1 (cls "ilnr"), ws1]),
      many1 (wcls ".-"), ws1, many1 (wcls "./-"), .eos]⟩,
    ⟨true, seqR [strR "find", ws1, many1 (wcls "./-"), ws1, strR "-name", ws1,
      many1 nameArgCls, .eos]⟩,
    ⟨true, seqR [strR "find", ws1, many1 (wcls "./-"), ws1, strR "-name", ws1,
      many1 nameArgCls, ws0, chr '|', ws0, strR "head",
      optR (seqR [ws1, chr '-', optR (chr 'n'), ws0, many1 digitR]), .star dotAny, .eos]⟩,
    ⟨true, seqR [strR "find", ws1, many1 (wcls "./-"), ws1, strR "-name", ws1,
      many1 nameArgCls, ws0, chr '|', ws0, strR "tail",
      optR (seqR [ws1, chr '-', optR (chr 'n'), ws0, many1 digitR]), .star dotAny, .eos]⟩,
    ⟨true, seqR [strR "find", ws1, many1 (wcls "./-"), ws1, strR "-name", ws1,
      many1 nameArgCls, ws0, chr '|', ws0, strR "grep", ws1, many1 (wcls ".-"),
      .star dotAny, .eos]⟩,
    ⟨true, seqR [strR "wc", ws1, optR (seqR [chr '-', many1 (cls "lwc"), ws1]),
      many1 (wcls "./-"), .eos]⟩,
    ⟨true, seqR [strR "file", ws1, many1 (wcls "./-"), .eos]⟩,
    ⟨true, seqR [strR "stat", ws1, many1 (wcls "./-"), .eos]⟩,
    ⟨true, seqR [strR "mkdir", ws1, strR "-p", ws1, many1 (wcls "./-"), .eos]⟩,
    ⟨true, seqR [strR "cd", ws1, many1 (wcls "./-"), .eos]⟩,
    ⟨true, seqR [strR "pwd", .eos]⟩,
    ⟨true, seqR [strR "echo", ws1, many1 echoCls, .eos]⟩,
    ⟨true, seqR [strR "which", ws1, many1 (wcls "-"), .eos]⟩,
    ⟨true, seqR [strR "tree", optR (seqR [ws1, chr '-', many1 (cls "aL")]),
      optR (seqR [ws1, many1 (wcls "./-")]), .eos]⟩ ]

def cdPre : Re := seqR [strR "cd", ws1, many1 (wcls "./-"), ws1, strR "&&", ws1]

def chainingPats : List Pat :=
  [ ⟨true, .cat cdPre (seqR [strR "npm", ws1,
      altStrs ["install", "i", "add", "remove", "uninstall", "update", "outdated", "audit",
        "fund"], optRest, .eos])⟩,
    ⟨true, .cat cdPre (seqR [strR "npm", ws1, strR "run", ws1, many1 (wcls ":-"), optRest,
      .eos])⟩,
    ⟨true, .cat cdPre (seqR [strR "npm", ws1,
      altStrs ["start", "build", "test", "dev", "lint", "preview", "serve"], optRest, .eos])⟩,
    ⟨true, .cat cdPre (seqR [strR "npm", ws1, strR "ci", optRest, .eos])⟩,
    ⟨true, .cat cdPre (seqR [strR "yarn", ws1,
      altStrs ["add", "remove", "install", "upgrade", "outdated", "audit"], optRest, .eos])⟩,
    ⟨true, .cat cdPre (seqR [strR "yarn", ws1, many1 (wcls ":-"), optRest, .eos])⟩,
    ⟨true, .cat cdPre (seqR [strR "yarn", ws1,
      altStrs ["start", "build", "test", "dev", "lint", "preview", "serve"], optRest, .eos])⟩,
    ⟨true, .cat cdPre (seqR [strR "yarn", optR (seqR [ws1, strR "install"]), .eos])⟩,
    ⟨true, .cat cdPre (seqR [strR "pnpm", ws1,
      altStrs ["add", "remove", "install", "upgrade", "outdated", "audit"], optRest, .eos])⟩,
    ⟨true, .cat cdPre (seqR [strR "pnpm", ws1, many1 (wcls ":-"), optRest, .eos])⟩,
    ⟨true, .cat cdPre (seqR [strR "pnpm", ws1,
      altStrs ["start", "build", "test", "dev", "lint", "preview", "serve"], optRest, .eos])⟩,
    ⟨true, .cat cdPre (seqR [strR "pnpm", ws1, strR "i", optRest, .eos])⟩,
    ⟨true, .cat cdPre (seqR [strR "ls", optR (seqR [ws1, chr '-', many1 (cls "la")]),
      optRest, .eos])⟩,
    ⟨true, .cat cdPre (seqR [strR "pwd", .eos])⟩,
    ⟨true, .cat cdPre (seqR [strR "cat", ws1, many1 (wcls "./-"), .eos])⟩,
    ⟨true, .cat cdPre (seqR [strR "tree", optR (seqR [ws1, chr '-', many1 (cls "aL")]),
      optR (seqR [ws1, many1 (wcls "./-")]), .eos])⟩ ]

def gitPats : List Pat :=
  [ ⟨true, seqR [strR "git", ws1, altStrs ["status", "log", "diff", "show"], optRest, .eos]⟩,
    ⟨true, seqR [strR "git", ws1, altStrs ["add", "commit", "push", "pull"], ws1,
      .star dotAny, .eos]⟩,
    ⟨true, seqR [strR "git", ws1, altStrs ["checkout", "branch"], ws1, many1 (wcls "/-"),
      .eos]⟩,
    ⟨true, seqR [strR "git", ws1, strR "clone", ws1, strR "https://", .star dotAny, .eos]⟩ ]

/-- All safe patterns, flattened in the object-key order of
`SAFE_COMMAND_PATTERNS` (npm, yarn, pnpm, generators, tools, fileOps,
chaining, git), as `Object.values(...).flat()` produces. -/
def safeCommandPatterns : List Pat :=
  npmPats ++ yarnPats ++ pnpmPats ++ generatorsPats ++ toolsPats ++ fileOpsPats ++
    chainingPats ++ gitPats

/-- Transcription of `BLOCKED_PATTERNS`, source order, unanchored. -/
def blockedPatterns : List Pat :=
  [ ⟨false, seqR [strR "rm", ws1, strR "-rf"]⟩,
    ⟨false, strR "sudo"⟩,
    ⟨false, seqR [strR "chmod", ws1, many1 (cls "01234567")]⟩,
    ⟨false, strR "chown"⟩,
    ⟨false, seqR [strR "curl", .star dotAny, chr '|', ws0, strR "sh"]⟩,
    ⟨false, seqR [strR "wget", .star dotAny, chr '|', ws0, strR "sh"]⟩,
    ⟨false, strR "keyboard_server.js"⟩,
    ⟨false, strR "keyboard_utils"⟩,
    ⟨false, seqR [chr '>', ws0, strR "/etc/"]⟩,
    ⟨false, seqR [strR "/bin/", .nla (strR "sh")]⟩,
    ⟨false, strR "/usr/bin/"⟩,
    ⟨false, seqR [strR "eval", ws0, chr '(']⟩,
    ⟨false, seqR [strR "exec", ws0, chr '(']⟩,
    ⟨false, seqR [strR "spawn", ws0, chr '(']⟩,
    ⟨false, strR "../../"⟩ ]

inductive CmdError where
  | blockedForSecurity (cmd : String)
  | notInSafePatterns (cmd : String)
deriving DecidableEq

structure CmdDecision where
  allowed : Bool
  safe : Bool
deriving DecidableEq

def blockedAny (cmd : String) : Bool := blockedPatterns.any (fun p => patTest p cmd)

def safeAny (cmd : String) : Bool := safeCommandPatterns.any (fun p => patTest p cmd)

/-- Model of `validateCommand`: trim, refuse on any blocked pattern first,
then require at least one safe pattern. -/
def validateCommand (command : String) : Except CmdError CmdDecision :=
  let cmd := trimS command
  if blockedAny cmd then .error (.blockedForSecurity cmd)
  else if safeAny cmd then .ok ⟨true, true⟩
  else .error (.notInSafePatterns cmd)

/-! ## Error taxonomy for file operations -/

inductive OpError where
  | blocked (op : String) (reason : String)
  | criticalFile (name : String)
  | credential (op : String) (name : String)
  | traversal
  | alreadyExists (p : String)
  | missing (p : String)
  | protectedNoForce (p : String)
  | tooLarge (size bound : Nat)
  | notDirectory (p : String)
  | backupFailed (p : String)
  | fieldRequired (name : String)
  | filesNotArray
  | filesEmpty
  | tooManyFiles
  | ioError (p : String)
deriving DecidableEq

/-- Every error thrown by the source is a plain `new Error(...)`, so
`error.constructor.name` is always the string Error. -/
def errTypeName (_ : OpError) : String := "Error"

/-! ## Backup store -/

inductive BKind where
  | blob
  | meta
deriving DecidableEq

/-- One file in the backup directory.  A `blob` is the byte copy
`<base>.<context>.<timestamp>.backup`; a `meta` is its sidecar
`...backup.meta` holding original path, size and MD5 hash.  `mtime` is the
stat modification time, modelled by the logical clock at creation. -/
structure BackupEntry where
  base : String
  ctx : String
  ts : String
  origPath : String := ""
  kind : BKind
  bytes : String := ""
  hash : String := ""
  size : Nat := 0
  mtime : Nat
deriving DecidableEq

def backupFileName (base ctx ts : String) : String :=
  base ++ "." ++ ctx ++ "." ++ ts ++ ".backup"

/-- The character list of the literal `.backup`. -/
def bakChars : List Char := ['.', 'b', 'a', 'c', 'k', 'u', 'p']

/-- The character list of the literal `.meta`. -/
def metaChars : List Char := ['.', 'm', 'e', 't', 'a']

/-- The directory-entry name of a backup entry, as a character list. -/
def nameChars (e : BackupEntry) : List Char :=
  let core := e.base.data ++ ['.'] ++ e.ctx.data ++ ['.'] ++ e.ts.data ++ bakChars
  match e.kind with
  | .blob => core
  | .meta => core ++ metaChars

/-- Meaning of the dynamically built cleanup regex
`^<escaped base>\..*\.backup$` on a directory-entry name: prefix
`<base>.`, suffix `.backup`, and a middle matched by `.*` (any characters
other than a newline). -/
def cleanupMatches (b : String) (e : BackupEntry) : Bool :=
  let n := nameChars e
  let pre := b.data ++ ['.']
  pre.isPrefixOf n && bakChars.isSuffixOf n &&
    decide (pre.length + 7 ≤ n.length) &&
    ((n.drop pre.length).take (n.length - pre.length - 7)).all (fun c => !(c == '\n'))

/-- Insertion step of a stable sort by `mtime` descending (the source sorts
with comparator `b.stat.mtime - a.stat.mtime`). -/
def insertDesc (e : BackupEntry) : List BackupEntry → List BackupEntry
  | [] => [e]
  | x :: xs => if x.mtime ≤ e.mtime then e :: x :: xs else x :: insertDesc e xs

def sortByMtimeDesc (l : List BackupEntry) : List BackupEntry := l.foldr insertDesc []

/-- Model of `cleanupOldBackups`: keep the `maxBackups` most recent entries
whose name matches the base-name pattern, delete the rest.  (The directory is
a set; the model returns non-matching entries followed by the retained
matching ones.) -/
def cleanupOldBackups (base : String) (dir : List BackupEntry) : List BackupEntry :=
  let matching := dir.filter (cleanupMatches base)
  let rest := dir.filter (fun e => !cleanupMatches base e)
  rest ++ (sortByMtimeDesc matching).take maxBackups

def mkBlobEntry (base ctx ts bytes : String) (clk : Nat) : BackupEntry :=
  { base := base, ctx := ctx, ts := ts, kind := .blob, bytes := bytes, mtime := clk }

def mkMetaEntry (md5 : String → String) (orig base ctx ts bytes : String) (clk : Nat) :
    BackupEntry :=
  { base := base, ctx := ctx, ts := ts, origPath := orig, kind := .meta,
    hash := md5 bytes, size := bytes.length, mtime := clk }

/-! ## Filesystem state and environment -/

/-- Environment parameters of the model: the working directory `W` (segment
list of `process.cwd()`), the MD5 function of the external crypto library,
the timestamp renderer (`new Date().toISOString()` with `[:.]` replaced by
`-`, indexed by the logical clock), and whether the snapshot copy primitive
succeeds (`fs.copyFileSync` can fail; `createSmartBackup` rethrows). -/
structure Env where
  W : List String
  md5 : String → String
  tsName : Nat → String
  copyOk : Bool

structure FSState where
  files : List (String × String) := []
  dirs : List String := []
  backups : List BackupEntry := []
  clock : Nat := 0
deriving DecidableEq

def fsExists (st : FSState) (p : String) : Bool :=
  (st.files.lookup p).isSome || st.dirs.contains p

def isDirOf (st : FSState) (p : String) : Bool := st.dirs.contains p

def setFile (st : FSState) (p c : String) : FSState :=
  { st with files := (p, c) :: st.files.filter (fun kv => kv.1 != p) }

def removeFile (st : FSState) (p : String) : FSState :=
  { st with files := st.files.filter (fun kv => kv.1 != p) }

def dirnameStr (full : String) : String := renderAbs ((splitPath full).dropLast)

def addDir (st : FSState) (d : String) : FSState :=
  if st.dirs.contains d then st else { st with dirs := d :: st.dirs }

/-- Model of `validateFilePath`: resolve against the working directory and
require the resolved string to start with the rendered working directory
(this is the literal `fullPath.startsWith(cwd)` check of the source). -/
def validateFilePathE (env : Env) (p : String) : Except OpError String :=
  let full := resolveRender env.W p
  if startsWithS full (renderAbs env.W) then .ok full else .error .traversal

/-- Model of `validateFileOperation`: refuse when the analysis refuses, with
a second (redundant) critical-file check as in the source. -/
def validateFileOperation (filePath op : String) : Except OpError PathAnalysis :=
  let a := analyzeFilePath filePath
  if !a.allowed then .error (.blocked op a.reason)
  else if a.level == .CRITICAL then .error (.criticalFile (basenameStr filePath))
  else .ok a

/-- Model of `validateCredentialAccess`. -/
def validateCredentialAccess (filePath op : String) : Except OpError Unit :=
  if isCredentialFile filePath then .error (.credential op (basenameStr filePath))
  else .ok ()

/-- Model of `createSmartBackup`: nothing to do when the file does not
exist; on a failing copy the error propagates to the caller; otherwise the
blob and its `.meta` sidecar are written to the backup directory and the
per-base retention cleanup runs. -/
def createSmartBackup (env : Env) (st : FSState) (full ctx : String) :
    FSState × Except OpError (Option String) :=
  match st.files.lookup full with
  | none => (st, .ok none)
  | some bytes =>
    if !env.copyOk then (st, .error (.backupFailed full))
    else
      let base := basenameStr full
      let ts := env.tsName st.clock
      let blob := mkBlobEntry base ctx ts bytes st.clock
      let meta := mkMetaEntry env.md5 full base ctx ts bytes st.clock
      let dir2 := cleanupOldBackups base (st.backups ++ [blob, meta])
      ({ st with backups := dir2, clock := st.clock + 1 },
       .ok (some (backupFileName base ctx ts)))

/-! ## Payloads, results, single-file operations -/

/-- One JSON file object: the fields of a single-file request body or of an
element of a bulk `files` array.  `none` models an absent (undefined) key. -/
structure FileItem where
  filePath : Option String := none
  content : Option String := none
  overwrite : Option Bool := none
  createBackup : Option Bool := none
deriving DecidableEq

inductive FilesOpt where
  | absent
  | notArray
  | arr (items : List FileItem)
deriving DecidableEq

/-- A create/update/read request body: an optional `files` key plus the
single-file fields (which for bulk requests also carry the batch-level
flags). -/
structure FileReq where
  files : FilesOpt := .absent
  fields : FileItem := {}
deriving DecidableEq

structure DeletePayload where
  filePath : Option String := none
  force : Option Bool := none
deriving DecidableEq

structure ListPayload where
  dirPath : Option String := none
  includeHidden : Option Bool := none
  recursive : Option Bool := none
  includeCredentials : Option Bool := none
deriving DecidableEq

structure FileWriteResult where
  filePath : String
  fullPath : String
  size : Nat
  backup : Option String
  protectedFlag : Bool
deriving DecidableEq

structure DeleteResult where
  filePath : String
  fullPath : String
  backup : Option String
  protectedFlag : Bool
deriving DecidableEq

structure ReadResult where
  filePath : String
  fullPath : String
  content : String
  size : Nat
  protectedFlag : Bool
  credential : Bool
deriving DecidableEq

/-- Model of the single-file branch of `fileOperations.create`. -/
def createSingle (env : Env) (st : FSState) (p : FileItem) :
    FSState × Except OpError FileWriteResult :=
  let fp := p.filePath.getD ""
  match validateFileOperation fp "create" with
  | .error e => (st, .error e)
  | .ok analysis =>
    match validateCredentialAccess fp "create" with
    | .error e => (st, .error e)
    | .ok _ =>
      match validateFilePathE env fp with
      | .error e => (st, .error e)
      | .ok full =>
        if fsExists st full && !(p.overwrite.getD false) then
          (st, .error (.alreadyExists fp))
        else
          let bak :=
            if fsExists st full && (isProtectedFile full || analysis.level == .SYSTEM_FILE)
            then createSmartBackup env st full "create-overwrite"
            else (st, .ok none)
          match bak with
          | (st1, .error e) => (st1, .error e)
          | (st1, .ok bpath) =>
            let st2 := addDir st1 (dirnameStr full)
            let st3 := setFile st2 full (p.content.getD "")
            (st3, .ok { filePath := fp, fullPath := full, size := (p.content.getD "").length,
                        backup := bpath, protectedFlag := isProtectedFile full })

/-- Model of the single-file branch of `fileOperations.update`. -/
def updateSingle (env : Env) (st : FSState) (p : FileItem) :
    FSState × Except OpError FileWriteResult :=
  let fp := p.filePath.getD ""
  match validateFileOperation fp "update" with
  | .error e => (st, .error e)
  | .ok analysis =>
    match validateCredentialAccess fp "update" with
    | .error e => (st, .error e)
    | .ok _ =>
      match validateFilePathE env fp with
      | .error e => (st, .error e)
      | .ok full =>
        if !(fsExists st full) then (st, .error (.missing fp))
        else
          let shouldCreateBackup := p.createBackup.getD true
          let bak :=
            if shouldCreateBackup || isProtectedFile full ||
                analysis.level == .SYSTEM_FILE then
              createSmartBackup env st full "update"
            else (st, .ok none)
          match bak with
          | (st1, .error e) => (st1, .error e)
          | (st1, .ok bpath) =>
            let st2 := setFile st1 full (p.content.getD "")
            (st2, .ok { filePath := fp, fullPath := full, size := (p.content.getD "").length,
                        backup := bpath, protectedFlag := isProtectedFile full })

/-- Model of `fileOperations.delete` (no bulk form in the source; note that
it never consults `analyzeFilePath`).  `createBackup(fullPath)` is the legacy
wrapper for `createSmartBackup(fullPath, 'legacy')`. -/
def deleteOp (env : Env) (st : FSState) (q : DeletePayload) :
    FSState × Except OpError DeleteResult :=
  let fp := q.filePath.getD ""
  if fp == "" then (st, .error (.fieldRequired "filePath"))
  else
    match validateFilePathE env fp with
    | .error e => (st, .error e)
    | .ok full =>
      if !(fsExists st full) then (st, .error (.missing fp))
      else if isProtectedFile full && !(q.force.getD false) then
        (st, .error (.protectedNoForce fp))
      else
        match createSmartBackup env st full "legacy" with
        | (st1, .error e) => (st1, .error e)
        | (st1, .ok bpath) =>
          (removeFile st1 full,
           .ok { filePath := fp, fullPath := full, backup := bpath,
                 protectedFlag := isProtectedFile full })

/-- Model of the single-file branch of `fileOperations.read` (it never
consults `analyzeFilePath`; only the credential gate applies). -/
def readSingle (env : Env) (st : FSState) (p : FileItem) :
    FSState × Except OpError ReadResult :=
  let fp := p.filePath.getD ""
  match validateCredentialAccess fp "read" with
  | .error e => (st, .error e)
  | .ok _ =>
    match validateFilePathE env fp with
    | .error e => (st, .error e)
    | .ok full =>
      if !(fsExists st full) then (st, .error (.missing fp))
      else
        match st.files.lookup full with
        | none => (st, .error (.ioError fp))
        | some c =>
          if decide (c.length > maxFileSize) then (st, .error (.tooLarge c.length maxFileSize))
          else
            (st, .ok { filePath := fp, fullPath := full, content := c, size := c.length,
                       protectedFlag := isProtectedFile full,
                       credential := isCredentialFile full })

/-! ## Directory listing -/

structure ListItem where
  name : String
  relPath : String
  fullPath : String
  isDirectory : Bool
  isFile : Bool
  size : Nat
  protectedFlag : Bool
  credential : Bool
deriving DecidableEq

structure ListResult where
  dirPath : String
  fullPath : String
  items : List ListItem
  count : Nat
deriving DecidableEq

def joinRel (a b : String) : String := if a == "" then b else a ++ "/" ++ b

/-- Names of the immediate children of directory `d` in the state (the model
of `readdirSync`). -/
def childNames (st : FSState) (d : String) : List String :=
  ((st.files.map Prod.fst ++ st.dirs).filterMap (fun k =>
    if startsWithS k (d ++ "/") then
      match splitPath (dropS k (d.length + 1)) with
      | [] => none
      | s :: _ => some s
    else none)).eraseDups

/-- A child is a directory when some deeper entry lies beneath it or it is in
the directory set. -/
def childIsDir (st : FSState) (entryPath : String) : Bool :=
  st.dirs.contains entryPath ||
    (st.files.map Prod.fst ++ st.dirs).any (fun k => startsWithS k (entryPath ++ "/"))

/-- Model of the recursive `getFileList` walk inside `fileOperations.list`:
skips hidden entries unless requested, filters credential files unless
requested, and recurses when asked to. -/
def getFileList (st : FSState) (includeHidden recurse includeCredentials : Bool) :
    Nat → String → String → List ListItem
  | 0, _, _ => []
  | fuel + 1, currentPath, relPath =>
    (childNames st currentPath).foldr
      (fun entry acc =>
        if !includeHidden && startsWithS entry "." then acc
        else
          let entryPath := currentPath ++ "/" ++ entry
          let relEntry := joinRel relPath entry
          let isDir := childIsDir st entryPath
          let item : ListItem :=
            { name := entry, relPath := relEntry, fullPath := entryPath,
              isDirectory := isDir, isFile := !isDir,
              size := ((st.files.lookup entryPath).getD "").length,
              protectedFlag := isProtectedFile entryPath,
              credential := isCredentialFile entryPath }
          if !includeCredentials && item.credential && item.isFile then acc
          else
            item ::
              (if recurse && isDir then
                getFileList st includeHidden recurse includeCredentials fuel entryPath
                  relEntry ++ acc
              else acc))
      []

def listFuel (st : FSState) : Nat :=
  1 + (st.files.map (fun kv => kv.1.length) ++ st.dirs.map String.length).foldr max 0

/-- Model of `fileOperations.list` (no classification, no credential gate on
the directory itself). -/
def listOp (env : Env) (st : FSState) (q : ListPayload) :
    FSState × Except OpError ListResult :=
  let dp := q.dirPath.getD "."
  match validateFilePathE env dp with
  | .error e => (st, .error e)
  | .ok full =>
    if !(fsExists st full) then (st, .error (.missing dp))
    else if !(isDirOf st full) then (st, .error (.notDirectory dp))
    else
      let items := getFileList st (q.includeHidden.getD false) (q.recursive.getD false)
        (q.includeCredentials.getD false) (listFuel st) full ""
      (st, .ok { dirPath := dp, fullPath := full, items := items, count := items.length })

/-! ## Bulk operations

`processBulkOperation` fans the `files` array out; in the model the items run
left to right over the shared filesystem state (each item is independent and
runs to completion, so any interleaving yields the same per-item accounting).
Wall-clock `executionTime` is modelled as 0.
-/

structure BulkOutcome (β : Type) where
  index : Nat
  file : FileItem
  success : Bool
  result : Option β
  error : Option OpError
  etype : Option String
deriving DecidableEq

structure BulkAgg (β : Type) where
  success : Bool
  totalFiles : Nat
  successCount : Nat
  errorCount : Nat
  executionTime : Nat
  results : List (BulkOutcome β)
  errors : List (BulkOutcome β)
deriving DecidableEq

def mkOutcome (i : Nat) (it : FileItem) (r : Except OpError β) : BulkOutcome β :=
  match r with
  | .ok v => ⟨i, it, true, some v, none, none⟩
  | .error e => ⟨i, it, false, none, some e, some (errTypeName e)⟩

def runItems (opS : FSState → FileItem → FSState × Except OpError β) (st : FSState) :
    List (Nat × FileItem) → FSState × List (BulkOutcome β)
  | [] => (st, [])
  | (i, it) :: rest =>
    let step := opS st it
    let next := runItems opS step.1 rest
    (next.1, mkOutcome i it step.2 :: next.2)

def mkBulkAgg (k : Nat) (outs : List (BulkOutcome β)) : BulkAgg β :=
  let succ := outs.filter (fun o => o.success)
  let errs := outs.filter (fun o => !o.success)
  ⟨errs.length == 0, k, succ.length, errs.length, 0, succ, errs⟩

def processBulkOperation (opS : FSState → FileItem → FSState × Except OpError β)
    (st : FSState) (items : List FileItem) : FSState × BulkAgg β :=
  let run := runItems opS st items.enum
  (run.1, mkBulkAgg items.length run.2)

/-- Required-field check on one bulk item (`undefined` check of
`validateBulkPayload`); `needContent` is true for create/update
(`['filePath','content']`) and false for read (`['filePath']`). -/
def checkItem (needContent : Bool) (it : FileItem) : Bool :=
  it.filePath.isSome && (!needContent || it.content.isSome)

/-- Model of `validateBulkPayload`: returns true for a structurally valid
bulk request, false for a single-file request, and throws otherwise. -/
def validateBulkPayload (req : FileReq) (needContent : Bool) : Except OpError Bool :=
  match req.files with
  | .notArray => .error .filesNotArray
  | .arr items =>
    if items.length == 0 then .error .filesEmpty
    else if decide (items.length > 50) then .error .tooManyFiles
    else if items.all (checkItem needContent) then .ok true
    else .error (.fieldRequired "bulk item field")
  | .absent =>
    if req.fields.filePath.isNone then .error (.fieldRequired "filePath")
    else if needContent && req.fields.content.isNone then .error (.fieldRequired "content")
    else .ok false

inductive FileOpOut (β : Type) where
  | single (r : β)
  | bulk (agg : BulkAgg β)
deriving DecidableEq

/-- Model of `fileOperations.create`: in the bulk branch each element is
re-dispatched with `{...fileData, overwrite: payload.overwrite}`, so the
batch-level `overwrite` replaces any per-item value. -/
def createOp (env : Env) (st : FSState) (req : FileReq) :
    FSState × Except OpError (FileOpOut FileWriteResult) :=
  match validateBulkPayload req true with
  | .error e => (st, .error e)
  | .ok true =>
    match req.files with
    | .arr items =>
      let run := processBulkOperation
        (fun s it => createSingle env s { it with overwrite := req.fields.overwrite }) st items
      (run.1, .ok (.bulk run.2))
    | _ => (st, .error .filesNotArray)
  | .ok false =>
    let run := createSingle env st req.fields
    (run.1, run.2.map .single)

/-- Model of `fileOperations.update`: the bulk branch re-dispatches each
element with `{...fileData, createBackup: payload.createBackup}`. -/
def updateOp (env : Env) (st : FSState) (req : FileReq) :
    FSState × Except OpError (FileOpOut FileWriteResult) :=
  match validateBulkPayload req true with
  | .error e => (st, .error e)
  | .ok true =>
    match req.files with
    | .arr items =>
      let run := processBulkOperation
        (fun s it => updateSingle env s { it with createBackup := req.fields.createBackup })
        st items
      (run.1, .ok (.bulk run.2))
    | _ => (st, .error .filesNotArray)
  | .ok false =>
    let run := updateSingle env st req.fields
    (run.1, run.2.map .single)

/-- Model of `fileOperations.read` (bulk branch passes the batch `encoding`
through; content is returned unchanged in the model). -/
def readOp (env : Env) (st : FSState) (req : FileReq) :
    FSState × Except OpError (FileOpOut ReadResult) :=
  match validateBulkPayload req false with
  | .error e => (st, .error e)
  | .ok true =>
    match req.files with
    | .arr items =>
      let run := processBulkOperation (fun s it => readSingle env s it) st items
      (run.1, .ok (.bulk run.2))
    | _ => (st, .error .filesNotArray)
  | .ok false =>
    let run := readSingle env st req.fields
    (run.1, run.2.map .single)

/-! ## Backup snapshot sequences (for the retention invariant)

The backup-directory effect of one successful `createSmartBackup` call,
abstracted over the snapshotted file: append the blob and its sidecar, then
run the per-base cleanup, advancing the clock.
-/

structure SnapEvent where
  base : String
  ctx : String
  ts : String
  bytes : String
deriving DecidableEq

def snapStep (md5 : String → String) (ev : SnapEvent) (dir : List BackupEntry) (clk : Nat) :
    List BackupEntry :=
  cleanupOldBackups ev.base
    (dir ++ [mkBlobEntry ev.base ev.ctx ev.ts ev.bytes clk,
             mkMetaEntry md5 ev.base ev.base ev.ctx ev.ts ev.bytes clk])

def snapRun (md5 : String → String) : List SnapEvent → List BackupEntry × Nat →
    List BackupEntry × Nat
  | [], s => s
  | ev :: rest, (dir, clk) => snapRun md5 rest (snapStep md5 ev dir clk, clk + 1)

/-- Retained backup blobs that were snapshotted from base name `b`. -/
def countOwn (b : String) (dir : List BackupEntry) : Nat :=
  dir.countP (fun e => e.base == b && e.kind == BKind.blob)

def noNL (s : String) : Bool := s.data.all (fun c => !(c == '\n'))

/-! ## Browser console-log ring -/

inductive BrowserEvent (α : Type) where
  | consoleMsg (e : α)
  | pageError (e : α)
  | requestFailed (e : α)
  | navigate
deriving DecidableEq

/-- One listener firing or navigation, exactly as in `initBrowser` /
`browserOperations.navigate`: only the console-message listener trims the
ring to its last 1000 entries; page errors and request failures push without
trimming; navigation clears the ring before `page.goto`. -/
def browserStep : BrowserEvent α → List α → List α
  | .consoleMsg e, logs =>
    let l := logs ++ [e]
    if decide (l.length > 1000) then l.drop (l.length - 1000) else l
  | .pageError e, logs => logs ++ [e]
  | .requestFailed e, logs => logs ++ [e]
  | .navigate, _ => []

def browserRun (evs : List (BrowserEvent α)) (logs : List α) : List α :=
  evs.foldl (fun l e => browserStep e l) logs

/-! ## Helper lemmas about the classifier -/

theorem analyzeFilePath_level_allowed (p : String) :
    ((analyzeFilePath p).level = .CRITICAL → (analyzeFilePath p).allowed = false) ∧
    ((analyzeFilePath p).level = .SYSTEM_DIRECTORY → (analyzeFilePath p).allowed = false) ∧
    ((analyzeFilePath p).level = .PROJECT_FILE → (analyzeFilePath p).allowed = true) ∧
    ((analyzeFilePath p).level = .SYSTEM_FILE → (analyzeFilePath p).allowed = true) := by
  cases h1 : criticalSystemFiles.contains (basenameStr p) with
  | true => simp at h1; simp [analyzeFilePath, h1]
  | false =>
    simp at h1
    cases h2 : allowedProjectPaths.any (fun pat => patTest pat (normalizeStr p)) with
    | true => simp at h2; simp [analyzeFilePath, h1, h2]
    | false =>
      simp at h2
      cases h3 : protectedDirectories.find? (fun d => startsWithS (normalizeStr p) d) with
      | none =>
        simp [analyzeFilePath, h1, h3]
        split <;> simp
      | some d =>
        simp [analyzeFilePath, h1, h3]
        split <;> simp

theorem analyzeFilePath_critical (p : String) (hc : isCriticalFile p = true) :
    analyzeFilePath p = ⟨false, .CRITICAL, "Critical system file cannot be modified"⟩ := by
  unfold isCriticalFile at hc
  simp at hc
  simp [analyzeFilePath, hc]

theorem critical_isProtected (p : String) (hc : isCriticalFile p = true) :
    isProtectedFile p = true := by
  unfold isCriticalFile criticalSystemFiles at hc
  unfold isProtectedFile protectedFiles
  simp at hc ⊢
  rcases hc with h | h <;> simp [h]

theorem allowed_not_critical_beq (p : String) (h : (analyzeFilePath p).allowed = true) :
    ((analyzeFilePath p).level == PathLevel.CRITICAL) = false := by
  rw [beq_eq_false_iff_ne]
  intro hl
  rw [(analyzeFilePath_level_allowed p).1 hl] at h
  exact Bool.false_ne_true h

theorem validateFileOperation_not_allowed (p op : String)
    (h : (analyzeFilePath p).allowed = false) :
    validateFileOperation p op = .error (.blocked op (analyzeFilePath p).reason) := by
  unfold validateFileOperation
  simp [h]

theorem validateFileOperation_allowed (p op : String)
    (h : (analyzeFilePath p).allowed = true) :
    validateFileOperation p op = .ok (analyzeFilePath p) := by
  unfold validateFileOperation
  simp [h, allowed_not_critical_beq p h]

/-! ## Claim theorems -/

/-- Claim C5: command validation trims the command, refuses it whenever any
blocked pattern matches (deny before allow), refuses it when no safe pattern
matches either, and returns `allowed: true` exactly when no blocked pattern
and at least one safe pattern matches. -/
theorem c5_command_policy_round_trip (command : String) :
    (validateCommand command = .ok ⟨true, true⟩ ↔
      blockedAny (trimS command) = false ∧ safeAny (trimS command) = true) ∧
    (validateCommand command = .error (.blockedForSecurity (trimS command)) ↔
      blockedAny (trimS command) = true) ∧
    (validateCommand command = .error (.notInSafePatterns (trimS command)) ↔
      blockedAny (trimS command) = false ∧ safeAny (trimS command) = false) := by
  unfold validateCommand
  rcases hb : blockedAny (trimS command) <;> rcases hs : safeAny (trimS command) <;> simp [hb, hs]

/-- Claim C9 (counterexample): the console-log ring is not bounded by 1000
under arbitrary pushed events — 1001 page-error events leave 1001 entries,
because only the console-message listener trims the ring. -/
theorem browserRun_pageError_length (e : α) (n : Nat) (l : List α) :
    (browserRun (List.replicate n (BrowserEvent.pageError e)) l).length = l.length + n := by
  induction n generalizing l with
  | zero => simp [browserRun]
  | succ n ih =>
    rw [List.replicate_succ]
    show (browserRun (List.replicate n (BrowserEvent.pageError e))
      (browserStep (BrowserEvent.pageError e) l)).length = l.length + (n + 1)
    rw [ih]
    simp [browserStep]
    omega

theorem c9_console_ring_counterexample :
    1000 < (browserRun (List.replicate 1001 (BrowserEvent.pageError (0 : Nat))) []).length := by
  rw [browserRun_pageError_length]
  omega

/-- Claim C9 (amended): a console-message push trims the ring to at most 1000
entries, keeping the newest entries (the result is a suffix of the pushed
list), and navigation empties the ring; page-error and request-failed pushes
append without trimming, so they can grow the ring beyond 1000. -/
theorem c9_console_ring_amended (s : List α) (e : α) :
    (browserStep (BrowserEvent.consoleMsg e) s).length ≤ 1000 ∧
    browserStep (BrowserEvent.consoleMsg e) s <:+ s ++ [e] ∧
    browserStep BrowserEvent.navigate s = ([] : List α) ∧
    browserStep (BrowserEvent.pageError e) s = s ++ [e] ∧
    browserStep (BrowserEvent.requestFailed e) s = s ++ [e] := by
  refine ⟨?_, ?_, rfl, rfl, rfl⟩
  · simp only [browserStep]
    split
    · rename_i h
      simp only [List.length_drop]
      omega
    · rename_i h
      simp only [decide_eq_true_eq, Nat.not_lt] at h
      omega
  · simp only [browserStep]
    split
    · exact List.drop_suffix _ _
    · exact List.suffix_refl _

/-! ## Path confinement (C1) -/

theorem validateFilePathE_ok (env : Env) (p full : String)
    (h : validateFilePathE env p = .ok full) :
    full = resolveRender env.W p ∧
    startsWithS (resolveRender env.W p) (renderAbs env.W) = true := by
  simp only [validateFilePathE] at h
  split at h
  · rename_i hc
    refine ⟨?_, hc⟩
    injection h with h'
    exact h'.symm
  · exact absurd h (by simp)

theorem createSingle_ok_inWorkspace (env : Env) (st : FSState) (it : FileItem)
    (h : (createSingle env st it).2.isOk = true) :
    startsWithS (resolveRender env.W (it.filePath.getD "")) (renderAbs env.W) = true := by
  simp only [createSingle] at h
  cases hv : validateFileOperation (it.filePath.getD "") "create" with
  | error e => simp [hv, Except.isOk, Except.toBool] at h
  | ok analysis =>
    simp only [hv] at h
    cases hcred : validateCredentialAccess (it.filePath.getD "") "create" with
    | error e => simp [hcred, Except.isOk, Except.toBool] at h
    | ok u =>
      simp only [hcred] at h
      cases hpath : validateFilePathE env (it.filePath.getD "") with
      | error e => simp [hpath, Except.isOk, Except.toBool] at h
      | ok full => exact (validateFilePathE_ok env _ full hpath).2

theorem updateSingle_ok_inWorkspace (env : Env) (st : FSState) (it : FileItem)
    (h : (updateSingle env st it).2.isOk = true) :
    startsWithS (resolveRender env.W (it.filePath.getD "")) (renderAbs env.W) = true := by
  simp only [updateSingle] at h
  cases hv : validateFileOperation (it.filePath.getD "") "update" with
  | error e => simp [hv, Except.isOk, Except.toBool] at h
  | ok analysis =>
    simp only [hv] at h
    cases hcred : validateCredentialAccess (it.filePath.getD "") "update" with
    | error e => simp [hcred, Except.isOk, Except.toBool] at h
    | ok u =>
      simp only [hcred] at h
      cases hpath : validateFilePathE env (it.filePath.getD "") with
      | error e => simp [hpath, Except.isOk, Except.toBool] at h
      | ok full => exact (validateFilePathE_ok env _ full hpath).2

theorem deleteOp_ok_inWorkspace (env : Env) (st : FSState) (q : DeletePayload)
    (h : (deleteOp env st q).2.isOk = true) :
    startsWithS (resolveRender env.W (q.filePath.getD "")) (renderAbs env.W) = true := by
  simp only [deleteOp] at h
  cases hfp : (q.filePath.getD "" == "") with
  | true => simp [hfp, Except.isOk, Except.toBool] at h
  | false =>
    simp only [hfp] at h
    cases hpath : validateFilePathE env (q.filePath.getD "") with
    | error e => simp [hpath, Except.isOk, Except.toBool] at h
    | ok full => exact (validateFilePathE_ok env _ full hpath).2

theorem readSingle_ok_inWorkspace (env : Env) (st : FSState) (it : FileItem)
    (h : (readSingle env st it).2.isOk = true) :
    startsWithS (resolveRender env.W (it.filePath.getD "")) (renderAbs env.W) = true := by
  simp only [readSingle] at h
  cases hcred : validateCredentialAccess (it.filePath.getD "") "read" with
  | error e => simp [hcred, Except.isOk, Except.toBool] at h
  | ok u =>
    simp only [hcred] at h
    cases hpath : validateFilePathE env (it.filePath.getD "") with
    | error e => simp [hpath, Except.isOk, Except.toBool] at h
    | ok full => exact (validateFilePathE_ok env _ full hpath).2

theorem listOp_ok_inWorkspace (env : Env) (st : FSState) (q : ListPayload)
    (h : (listOp env st q).2.isOk = true) :
    startsWithS (resolveRender env.W (q.dirPath.getD ".")) (renderAbs env.W) = true := by
  simp only [listOp] at h
  cases hpath : validateFilePathE env (q.dirPath.getD ".") with
  | error e => simp [hpath, Except.isOk, Except.toBool] at h
  | ok full => exact (validateFilePathE_ok env _ full hpath).2

theorem createSingle_notPrefix (env : Env) (st : FSState) (it : FileItem)
    (hnp : startsWithS (resolveRender env.W (it.filePath.getD "")) (renderAbs env.W) =
      false) :
    (createSingle env st it).2.isOk = false ∧ (createSingle env st it).1 = st := by
  have hvp : validateFilePathE env (it.filePath.getD "") = .error .traversal := by
    simp [validateFilePathE, hnp]
  cases hv : validateFileOperation (it.filePath.getD "") "create" with
  | error e => simp [createSingle, hv, Except.isOk, Except.toBool]
  | ok analysis =>
    cases hcred : validateCredentialAccess (it.filePath.getD "") "create" with
    | error e => simp [createSingle, hv, hcred, Except.isOk, Except.toBool]
    | ok u => simp [createSingle, hv, hcred, hvp, Except.isOk, Except.toBool]

theorem updateSingle_notPrefix (env : Env) (st : FSState) (it : FileItem)
    (hnp : startsWithS (resolveRender env.W (it.filePath.getD "")) (renderAbs env.W) =
      false) :
    (updateSingle env st it).2.isOk = false ∧ (updateSingle env st it).1 = st := by
  have hvp : validateFilePathE env (it.filePath.getD "") = .error .traversal := by
    simp [validateFilePathE, hnp]
  cases hv : validateFileOperation (it.filePath.getD "") "update" with
  | error e => simp [updateSingle, hv, Except.isOk, Except.toBool]
  | ok analysis =>
    cases hcred : validateCredentialAccess (it.filePath.getD "") "update" with
    | error e => simp [updateSingle, hv, hcred, Except.isOk, Except.toBool]
    | ok u => simp [updateSingle, hv, hcred, hvp, Except.isOk, Except.toBool]

theorem readSingle_notPrefix (env : Env) (st : FSState) (it : FileItem)
    (hnp : startsWithS (resolveRender env.W (it.filePath.getD "")) (renderAbs env.W) =
      false) :
    (readSingle env st it).2.isOk = false ∧ (readSingle env st it).1 = st := by
  have hvp : validateFilePathE env (it.filePath.getD "") = .error .traversal := by
    simp [validateFilePathE, hnp]
  cases hcred : validateCredentialAccess (it.filePath.getD "") "read" with
  | error e => simp [readSingle, hcred, Except.isOk, Except.toBool]
  | ok u => simp [readSingle, hcred, hvp, Except.isOk, Except.toBool]

theorem deleteOp_notPrefix (env : Env) (st : FSState) (q : DeletePayload)
    (hnp : startsWithS (resolveRender env.W (q.filePath.getD "")) (renderAbs env.W) =
      false) :
    (deleteOp env st q).2.isOk = false ∧ (deleteOp env st q).1 = st := by
  have hvp : validateFilePathE env (q.filePath.getD "") = .error .traversal := by
    simp [validateFilePathE, hnp]
  cases hfp : (q.filePath.getD "" == "") with
  | true => simp [deleteOp, hfp, Except.isOk, Except.toBool]
  | false => simp [deleteOp, hfp, hvp, Except.isOk, Except.toBool]

theorem deleteOp_notPrefix_traversal (env : Env) (st : FSState) (q : DeletePayload)
    (hnp : startsWithS (resolveRender env.W (q.filePath.getD "")) (renderAbs env.W) =
      false)
    (hfp : (q.filePath.getD "" == "") = false) :
    (deleteOp env st q).2 = .error .traversal := by
  have hvp : validateFilePathE env (q.filePath.getD "") = .error .traversal := by
    simp [validateFilePathE, hnp]
  simp [deleteOp, hfp, hvp]

theorem listOp_notPrefix (env : Env) (st : FSState) (q : ListPayload)
    (hnp : startsWithS (resolveRender env.W (q.dirPath.getD ".")) (renderAbs env.W) =
      false) :
    (listOp env st q).2 = .error .traversal ∧ (listOp env st q).1 = st := by
  have hvp : validateFilePathE env (q.dirPath.getD ".") = .error .traversal := by
    simp [validateFilePathE, hnp]
  simp [listOp, hvp]

/-- Claim C1 (amended): every file operation that succeeds acted on a
resolved path whose string form has the rendered workspace root as a prefix
(the literal `fullPath.startsWith(cwd)` guarantee of `validateFilePath`);
and every path failing that check is refused with no filesystem effect — for
`list`, and for `delete` of a nonempty path, with the path-traversal error,
while `create`, `update` and `read` may instead be refused by the classifier
or credential checks that run before `validateFilePath`.  The original claim
(resolved path lies under `W` in the directory sense) is refuted by
`c1_confinement_counterexample`: a sibling directory whose name extends the
root's name string passes the check. -/
theorem c1_confinement_amended (env : Env) (st : FSState) :
    (∀ it : FileItem,
      ((createSingle env st it).2.isOk = true →
        startsWithS (resolveRender env.W (it.filePath.getD "")) (renderAbs env.W) =
          true) ∧
      (startsWithS (resolveRender env.W (it.filePath.getD "")) (renderAbs env.W) =
          false →
        (createSingle env st it).2.isOk = false ∧ (createSingle env st it).1 = st)) ∧
    (∀ it : FileItem,
      ((updateSingle env st it).2.isOk = true →
        startsWithS (resolveRender env.W (it.filePath.getD "")) (renderAbs env.W) =
          true) ∧
      (startsWithS (resolveRender env.W (it.filePath.getD "")) (renderAbs env.W) =
          false →
        (updateSingle env st it).2.isOk = false ∧ (updateSingle env st it).1 = st)) ∧
    (∀ q : DeletePayload,
      ((deleteOp env st q).2.isOk = true →
        startsWithS (resolveRender env.W (q.filePath.getD "")) (renderAbs env.W) =
          true) ∧
      (startsWithS (resolveRender env.W (q.filePath.getD "")) (renderAbs env.W) =
          false →
        (deleteOp env st q).2.isOk = false ∧ (deleteOp env st q).1 = st) ∧
      (startsWithS (resolveRender env.W (q.filePath.getD "")) (renderAbs env.W) =
          false → (q.filePath.getD "" == "") = false →
        (deleteOp env st q).2 = .error .traversal)) ∧
    (∀ it : FileItem,
      ((readSingle env st it).2.isOk = true →
        startsWithS (resolveRender env.W (it.filePath.getD "")) (renderAbs env.W) =
          true) ∧
      (startsWithS (resolveRender env.W (it.filePath.getD "")) (renderAbs env.W) =
          false →
        (readSingle env st it).2.isOk = false ∧ (readSingle env st it).1 = st)) ∧
    (∀ q : ListPayload,
      ((listOp env st q).2.isOk = true →
        startsWithS (resolveRender env.W (q.dirPath.getD ".")) (renderAbs env.W) =
          true) ∧
      (startsWithS (resolveRender env.W (q.dirPath.getD ".")) (renderAbs env.W) =
          false →
        (listOp env st q).2 = .error .traversal ∧ (listOp env st q).1 = st)) :=
  ⟨fun it => ⟨createSingle_ok_inWorkspace env st it, createSingle_notPrefix env st it⟩,
   fun it => ⟨updateSingle_ok_inWorkspace env st it, updateSingle_notPrefix env st it⟩,
   fun q => ⟨deleteOp_ok_inWorkspace env st q, deleteOp_notPrefix env st q,
     fun hnp hfp => deleteOp_notPrefix_traversal env st q hnp hfp⟩,
   fun it => ⟨readSingle_ok_inWorkspace env st it, readSingle_notPrefix env st it⟩,
   fun q => ⟨listOp_ok_inWorkspace env st q, listOp_notPrefix env st q⟩⟩

/-- Shared concrete environment: working directory `/w`, identity MD5 model,
constant timestamp, copies succeed. -/
def wEnv : Env := ⟨["w"], fun s => s, fun _ => "T", true⟩

/-- Claim C1 (counterexample): with workspace `/w`, `create` on `../wx`
succeeds and writes `/wx`, which does not lie under `/w` — the string-prefix
check accepts sibling paths that extend the root's name. -/
theorem c1_confinement_counterexample :
    (createSingle wEnv {} { filePath := some "../wx", content := some "hi" }).2.isOk = true ∧
    ((createSingle wEnv {} { filePath := some "../wx", content := some "hi" }).1.files.lookup
      (resolveRender ["w"] "../wx")) = some "hi" ∧
    isUnder (renderAbs ["w"]) (resolveRender ["w"] "../wx") = false := by
  decide

theorem c1_confinement_amended_witness :
    ((createSingle wEnv {} { filePath := some "src/a.txt", content := some "x" }).2.isOk = true ∧
     startsWithS (resolveRender wEnv.W "src/a.txt") (renderAbs wEnv.W) = true) ∧
    (startsWithS (resolveRender wEnv.W "/etc/passwd") (renderAbs wEnv.W) = false ∧
     (deleteOp wEnv {} { filePath := some "/etc/passwd", force := some true }).2 =
       .error .traversal ∧
     (readSingle wEnv {} { filePath := some "/etc/passwd" }).2.isOk = false ∧
     (listOp wEnv {} { dirPath := some "/etc" }).2 = .error .traversal) :=
  ⟨⟨by decide,
    ((c1_confinement_amended wEnv {}).1
      { filePath := some "src/a.txt", content := some "x" }).1 (by decide)⟩,
   ⟨by decide,
    ((c1_confinement_amended wEnv {}).2.2.1
      { filePath := some "/etc/passwd", force := some true }).2.2 (by decide) (by decide),
    (((c1_confinement_amended wEnv {}).2.2.2.1
      { filePath := some "/etc/passwd" }).2 (by decide)).1,
    (((c1_confinement_amended wEnv {}).2.2.2.2
      { dirPath := some "/etc" }).2 (by decide)).1⟩⟩

/-! ## Critical files (C2) -/

/-- Claim C2 (amended): for a path whose basename is in the
critical-system-files list, `create` (with or without overwrite) and
`update` are refused by the classifier with the state unchanged, and
`delete` without `force` is refused because every critical basename is also
in the protected list; but `delete` with `force=true` is not policed by the
classifier and proceeds (see `c2_critical_counterexample`).  Read is not
refused by the classifier either. -/
theorem c2_critical_mutation_amended (env : Env) (st : FSState) (p c : String)
    (ow cb : Option Bool)
    (hc : isCriticalFile p = true)
    (hcr : isCriticalFile (resolveRender env.W p) = true) :
    createSingle env st ⟨some p, some c, ow, cb⟩ =
      (st, .error (.blocked "create" "Critical system file cannot be modified")) ∧
    updateSingle env st ⟨some p, some c, ow, cb⟩ =
      (st, .error (.blocked "update" "Critical system file cannot be modified")) ∧
    (∀ fc : Option Bool, fc.getD false = false →
      (deleteOp env st ⟨some p, fc⟩).1 = st ∧ (deleteOp env st ⟨some p, fc⟩).2.isOk = false) := by
  have ha := analyzeFilePath_critical p hc
  have hvc : validateFileOperation p "create" =
      .error (.blocked "create" "Critical system file cannot be modified") := by
    rw [validateFileOperation_not_allowed p "create" (by rw [ha]), ha]
  have hvu : validateFileOperation p "update" =
      .error (.blocked "update" "Critical system file cannot be modified") := by
    rw [validateFileOperation_not_allowed p "update" (by rw [ha]), ha]
  refine ⟨?_, ?_, ?_⟩
  · simp [createSingle, hvc]
  · simp [updateSingle, hvu]
  · intro fc hfc
    have hprot := critical_isProtected _ hcr
    cases hfp : (p == "") with
    | true => simp [deleteOp, hfp, Except.isOk, Except.toBool]
    | false =>
      cases hpath : validateFilePathE env p with
      | error e => simp [deleteOp, hfp, hpath, Except.isOk, Except.toBool]
      | ok full =>
        obtain ⟨hfull, _⟩ := validateFilePathE_ok env p full hpath
        subst hfull
        cases hex : fsExists st (resolveRender env.W p) with
        | false => simp [deleteOp, hfp, hpath, hex, Except.isOk, Except.toBool]
        | true => simp [deleteOp, hfp, hpath, hex, hprot, hfc, Except.isOk, Except.toBool]

/-- Claim C2 (counterexample): `delete` with `force=true` on
`keyboard_server.js` (a critical basename) succeeds and removes the file —
`fileOperations.delete` never consults the classifier, so critical files are
not protected from forced deletion. -/
theorem c2_critical_counterexample :
    isCriticalFile "keyboard_server.js" = true ∧
    (deleteOp wEnv { files := [("/w/keyboard_server.js", "X")] }
      ⟨some "keyboard_server.js", some true⟩).2.isOk = true ∧
    ((deleteOp wEnv { files := [("/w/keyboard_server.js", "X")] }
      ⟨some "keyboard_server.js", some true⟩).1.files.lookup "/w/keyboard_server.js") = none := by
  decide

theorem c2_critical_amended_witness :
    isCriticalFile "keyboard_server.js" = true ∧
    createSingle wEnv {} ⟨some "keyboard_server.js", some "x", some true, none⟩ =
      ({}, .error (.blocked "create" "Critical system file cannot be modified")) :=
  ⟨by decide,
   (c2_critical_mutation_amended wEnv {} "keyboard_server.js" "x" (some true) none
     (by decide) (by decide)).1⟩

/-! ## System directories (C3) -/

/-- Claim C3 (amended): for a path classified `SYSTEM_DIRECTORY`, the
classifier refuses it (`allowed=false`) and `create` and `update` are
refused with the state unchanged; but `delete`, `read` and `list` never
consult the classifier, so operations on protected-directory contents other
than create/update can succeed (see `c3_system_directory_counterexample`). -/
theorem c3_system_directory_amended (env : Env) (st : FSState) (p c : String)
    (ow cb : Option Bool)
    (h : (analyzeFilePath p).level = .SYSTEM_DIRECTORY) :
    (analyzeFilePath p).allowed = false ∧
    createSingle env st ⟨some p, some c, ow, cb⟩ =
      (st, .error (.blocked "create" (analyzeFilePath p).reason)) ∧
    updateSingle env st ⟨some p, some c, ow, cb⟩ =
      (st, .error (.blocked "update" (analyzeFilePath p).reason)) := by
  have ha := (analyzeFilePath_level_allowed p).2.1 h
  refine ⟨ha, ?_, ?_⟩
  · simp [createSingle, validateFileOperation_not_allowed p "create" ha]
  · simp [updateSingle, validateFileOperation_not_allowed p "update" ha]

/-- Claim C3 (counterexample): `keyboard_utils/browser_automation.js` is
classified `SYSTEM_DIRECTORY` (refused), yet `read` and `delete` on it and
`list` on `keyboard_utils` all succeed, because those operations never
consult the classifier. -/
theorem c3_system_directory_counterexample :
    (analyzeFilePath "keyboard_utils/browser_automation.js").level =
      PathLevel.SYSTEM_DIRECTORY ∧
    (analyzeFilePath "keyboard_utils/browser_automation.js").allowed = false ∧
    (readSingle wEnv
      { files := [("/w/keyboard_utils/browser_automation.js", "code")],
        dirs := ["/w/keyboard_utils"] }
      { filePath := some "keyboard_utils/browser_automation.js" }).2.isOk = true ∧
    (deleteOp wEnv
      { files := [("/w/keyboard_utils/browser_automation.js", "code")],
        dirs := ["/w/keyboard_utils"] }
      ⟨some "keyboard_utils/browser_automation.js", none⟩).2.isOk = true ∧
    (listOp wEnv
      { files := [("/w/keyboard_utils/browser_automation.js", "code")],
        dirs := ["/w/keyboard_utils"] }
      { dirPath := some "keyboard_utils" }).2.isOk = true := by
  decide

theorem c3_system_directory_amended_witness :
    (analyzeFilePath "keyboard_utils/x.conf").level = PathLevel.SYSTEM_DIRECTORY ∧
    createSingle wEnv {} ⟨some "keyboard_utils/x.conf", some "y", none, none⟩ =
      ({}, .error (.blocked "create" (analyzeFilePath "keyboard_utils/x.conf").reason)) :=
  ⟨by decide,
   (c3_system_directory_amended wEnv {} "keyboard_utils/x.conf" "y" none none (by decide)).2.1⟩

/-! ## Credential files (C4) -/

/-- Claim C4 (amended): for a path matching the credential predicate, `read`
always fails with the credential error and no filesystem effect; `create`
and `update` always fail with no filesystem effect, and fail with the
credential error exactly when the classifier allows the path — when the
classifier refuses it (for example a credential file inside a protected
directory) the error is the classifier's, not the credential error (see
`c4_credential_counterexample`). -/
theorem c4_credential_opacity_amended (env : Env) (st : FSState) (p c : String)
    (ow cb : Option Bool)
    (h : isCredentialFile p = true) :
    readSingle env st ⟨some p, none, none, none⟩ =
      (st, .error (.credential "read" (basenameStr p))) ∧
    ((createSingle env st ⟨some p, some c, ow, cb⟩).1 = st ∧
      (createSingle env st ⟨some p, some c, ow, cb⟩).2.isOk = false) ∧
    ((analyzeFilePath p).allowed = true →
      createSingle env st ⟨some p, some c, ow, cb⟩ =
        (st, .error (.credential "create" (basenameStr p)))) ∧
    ((updateSingle env st ⟨some p, some c, ow, cb⟩).1 = st ∧
      (updateSingle env st ⟨some p, some c, ow, cb⟩).2.isOk = false) ∧
    ((analyzeFilePath p).allowed = true →
      updateSingle env st ⟨some p, some c, ow, cb⟩ =
        (st, .error (.credential "update" (basenameStr p)))) := by
  have hread : readSingle env st ⟨some p, none, none, none⟩ =
      (st, .error (.credential "read" (basenameStr p))) := by
    simp [readSingle, validateCredentialAccess, h]
  cases hall : (analyzeFilePath p).allowed with
  | false =>
    refine ⟨hread, ?_, ?_, ?_, ?_⟩
    · simp [createSingle, validateFileOperation_not_allowed p "create" hall, Except.isOk, Except.toBool]
    · intro hcontra; simp [hall] at hcontra
    · simp [updateSingle, validateFileOperation_not_allowed p "update" hall, Except.isOk, Except.toBool]
    · intro hcontra; simp [hall] at hcontra
  | true =>
    have hcreate : createSingle env st ⟨some p, some c, ow, cb⟩ =
        (st, .error (.credential "create" (basenameStr p))) := by
      simp [createSingle, validateFileOperation_allowed p "create" hall,
        validateCredentialAccess, h]
    have hupdate : updateSingle env st ⟨some p, some c, ow, cb⟩ =
        (st, .error (.credential "update" (basenameStr p))) := by
      simp [updateSingle, validateFileOperation_allowed p "update" hall,
        validateCredentialAccess, h]
    exact ⟨hread, by simp [hcreate, Except.isOk, Except.toBool], fun _ => hcreate,
      by simp [hupdate, Except.isOk, Except.toBool], fun _ => hupdate⟩

/-- Claim C4 (counterexample): `keyboard_utils/secret.pem` matches the
credential predicate, yet `create` on it fails with the classifier's
`SYSTEM_DIRECTORY` error, not a credential-access error — the classifier
runs before the credential check in create/update. -/
theorem c4_credential_counterexample :
    isCredentialFile "keyboard_utils/secret.pem" = true ∧
    (createSingle wEnv {} ⟨some "keyboard_utils/secret.pem", some "z", none, none⟩).2 =
      .error (.blocked "create" "File in protected system directory: keyboard_utils/") := by
  decide

theorem c4_credential_amended_witness :
    isCredentialFile ".env" = true ∧
    readSingle wEnv {} ⟨some ".env", none, none, none⟩ =
      ({}, .error (.credential "read" (basenameStr ".env"))) :=
  ⟨by decide,
   (c4_credential_opacity_amended wEnv {} ".env" "c" none none (by decide)).1⟩

/-! ## Bulk flag propagation (C10) -/

def mapOutcomeFile (m : FileItem → FileItem) (o : BulkOutcome β) : BulkOutcome β :=
  { o with file := m o.file }

def mapAggFile (m : FileItem → FileItem) (a : BulkAgg β) : BulkAgg β :=
  { a with results := a.results.map (mapOutcomeFile m),
           errors := a.errors.map (mapOutcomeFile m) }

/-- Rewrites the echoed `file` field of bulk outcomes; everything else in an
operation result is untouched. -/
def mapFileOpOut (m : FileItem → FileItem) :
    Except OpError (FileOpOut β) → Except OpError (FileOpOut β)
  | .ok (.bulk a) => .ok (.bulk (mapAggFile m a))
  | x => x

theorem mkOutcome_map (m : FileItem → FileItem) (i : Nat) (it : FileItem)
    (r : Except OpError β) :
    mkOutcome i (m it) r = mapOutcomeFile m (mkOutcome i it r) := by
  cases r <;> rfl

theorem runItems_item_map (opS : FSState → FileItem → FSState × Except OpError β)
    (m : FileItem → FileItem) (hop : ∀ s it, opS s (m it) = opS s it) :
    ∀ (l : List (Nat × FileItem)) (st),
      runItems opS st (l.map (fun q => (q.1, m q.2))) =
        ((runItems opS st l).1, (runItems opS st l).2.map (mapOutcomeFile m)) := by
  intro l
  induction l with
  | nil => intro st; rfl
  | cons q rest ih =>
    intro st
    obtain ⟨i, it⟩ := q
    simp only [List.map_cons, runItems, hop st it, ih (opS st it).1, List.map_cons,
      mkOutcome_map]

theorem all_congr_mem (l : List α) (p q : α → Bool) (h : ∀ a ∈ l, p a = q a) :
    l.all p = l.all q := by
  induction l with
  | nil => rfl
  | cons a rest ih =>
    simp only [List.all_cons, h a (by simp), ih (fun a ha => h a (by simp [ha]))]

theorem validateBulkPayload_arr_map (flds : FileItem) (items : List FileItem)
    (needContent : Bool) (m : FileItem → FileItem)
    (hm : ∀ it, (m it).filePath = it.filePath ∧ (m it).content = it.content) :
    validateBulkPayload ⟨.arr (items.map m), flds⟩ needContent =
      validateBulkPayload ⟨.arr items, flds⟩ needContent := by
  unfold validateBulkPayload
  simp only [List.length_map, List.all_map]
  rw [all_congr_mem items (checkItem needContent ∘ m) (checkItem needContent)
    (fun it _ => by unfold Function.comp checkItem; rw [(hm it).1, (hm it).2])]

theorem mkBulkAgg_map (m : FileItem → FileItem) (k : Nat) (outs : List (BulkOutcome β)) :
    mkBulkAgg k (outs.map (mapOutcomeFile m)) = mapAggFile m (mkBulkAgg k outs) := by
  unfold mkBulkAgg mapAggFile
  have hs : (fun o : BulkOutcome β => o.success) ∘ mapOutcomeFile m =
      fun o : BulkOutcome β => o.success := rfl
  have hns : (fun o : BulkOutcome β => !o.success) ∘ mapOutcomeFile m =
      fun o : BulkOutcome β => !o.success := rfl
  simp [List.filter_map, hs, hns]

theorem mapFileOpOut_single (m : FileItem → FileItem) (r : Except OpError β) :
    mapFileOpOut m (r.map FileOpOut.single) = r.map FileOpOut.single := by
  cases r <;> rfl

/-- Claim C10: in a bulk create every item is processed with the batch-level
overwrite flag — any per-item `overwrite` field is overwritten by the spread
`{...fileData, overwrite: payload.overwrite}` and so only survives in the
echoed `file` field of the outcome — and a single create treats an absent
overwrite as `false`; likewise a bulk update processes every item with the
batch-level `createBackup` flag and a single update treats an absent
`createBackup` as `true`. -/
theorem c10_bulk_flag_propagation (env : Env) (st : FSState) (items : List FileItem)
    (flds : FileItem) (g g' : FileItem → Option Bool) :
    (createOp env st ⟨.arr (items.map (fun it => { it with overwrite := g it })), flds⟩ =
      ((createOp env st ⟨.arr items, flds⟩).1,
        mapFileOpOut (fun it => { it with overwrite := g it })
          (createOp env st ⟨.arr items, flds⟩).2)) ∧
    (updateOp env st ⟨.arr (items.map (fun it => { it with createBackup := g' it })), flds⟩ =
      ((updateOp env st ⟨.arr items, flds⟩).1,
        mapFileOpOut (fun it => { it with createBackup := g' it })
          (updateOp env st ⟨.arr items, flds⟩).2)) ∧
    (∀ it : FileItem, createSingle env st { it with overwrite := none } =
      createSingle env st { it with overwrite := some false }) ∧
    (∀ it : FileItem, updateSingle env st { it with createBackup := none } =
      updateSingle env st { it with createBackup := some true }) := by
  refine ⟨?_, ?_, fun it => rfl, fun it => rfl⟩
  · unfold createOp
    rw [validateBulkPayload_arr_map flds items true
      (fun it => { it with overwrite := g it }) (fun it => ⟨rfl, rfl⟩)]
    cases hval : validateBulkPayload ⟨.arr items, flds⟩ true with
    | error e => simp [mapFileOpOut]
    | ok b =>
      cases b with
      | false => simp [mapFileOpOut_single]
      | true =>
        simp only [processBulkOperation, List.enum_map]
        have hpm : items.enum.map (Prod.map id (fun it => { it with overwrite := g it })) =
            items.enum.map (fun q => (q.1, { q.2 with overwrite := g q.2 })) := by
          simp [Prod.map]
        rw [hpm, runItems_item_map
          (fun s it => createSingle env s { it with overwrite := flds.overwrite })
          (fun it => { it with overwrite := g it })
          (fun s it => rfl) items.enum st]
        simp [mkBulkAgg_map, mapFileOpOut]
  · unfold updateOp
    rw [validateBulkPayload_arr_map flds items true
      (fun it => { it with createBackup := g' it }) (fun it => ⟨rfl, rfl⟩)]
    cases hval : validateBulkPayload ⟨.arr items, flds⟩ true with
    | error e => simp [mapFileOpOut]
    | ok b =>
      cases b with
      | false => simp [mapFileOpOut_single]
      | true =>
        simp only [processBulkOperation, List.enum_map]
        have hpm : items.enum.map (Prod.map id (fun it => { it with createBackup := g' it })) =
            items.enum.map (fun q => (q.1, { q.2 with createBackup := g' q.2 })) := by
          simp [Prod.map]
        rw [hpm, runItems_item_map
          (fun s it => updateSingle env s { it with createBackup := flds.createBackup })
          (fun it => { it with createBackup := g' it })
          (fun s it => rfl) items.enum st]
        simp [mkBulkAgg_map, mapFileOpOut]

/-! ## Bulk accounting (C8) -/

theorem runItems_map_index (opS : FSState → FileItem → FSState × Except OpError β) :
    ∀ (l : List (Nat × FileItem)) (st),
      (runItems opS st l).2.map (fun o => o.index) = l.map Prod.fst := by
  intro l
  induction l with
  | nil => intro st; rfl
  | cons q rest ih =>
    intro st
    obtain ⟨i, it⟩ := q
    simp only [runItems, List.map_cons, ih]
    congr 1
    cases hr : (opS st it).2 <;> simp [mkOutcome, hr]

theorem runItems_length (opS : FSState → FileItem → FSState × Except OpError β)
    (l : List (Nat × FileItem)) (st : FSState) :
    (runItems opS st l).2.length = l.length := by
  have h := congrArg List.length (runItems_map_index opS l st)
  simpa using h

theorem runItems_outcome_shape (opS : FSState → FileItem → FSState × Except OpError β) :
    ∀ (l : List (Nat × FileItem)) (st : FSState), ∀ o ∈ (runItems opS st l).2,
      (o.success = true → o.result.isSome = true ∧ o.error = none ∧ o.etype = none) ∧
      (o.success = false →
        o.result = none ∧ o.error.isSome = true ∧ o.etype.isSome = true) := by
  intro l
  induction l with
  | nil => intro st o ho; simp [runItems] at ho
  | cons q rest ih =>
    intro st o ho
    obtain ⟨i, it⟩ := q
    simp only [runItems, List.mem_cons] at ho
    rcases ho with h | h
    · subst h
      cases hr : (opS st it).2 <;> simp [mkOutcome, hr]
    · exact ih (opS st it).1 o h

theorem mkBulkAgg_counts (k : Nat) (outs : List (BulkOutcome β)) :
    (mkBulkAgg k outs).totalFiles = k ∧
    (mkBulkAgg k outs).successCount + (mkBulkAgg k outs).errorCount = outs.length := by
  refine ⟨rfl, ?_⟩
  have h := (List.filter_append_perm (fun o : BulkOutcome β => o.success) outs).length_eq
  simpa [mkBulkAgg, List.length_append] using h

theorem mkBulkAgg_index_perm (k : Nat) (outs : List (BulkOutcome β)) :
    ((mkBulkAgg k outs).results.map (fun o => o.index) ++
      (mkBulkAgg k outs).errors.map (fun o => o.index)).Perm
      (outs.map (fun o => o.index)) := by
  unfold mkBulkAgg
  simp only [← List.map_append]
  exact (List.filter_append_perm (fun o : BulkOutcome β => o.success) outs).map _

/-- Claim C8: a structurally valid bulk create of size `k` (1 ≤ k ≤ 50, all
items carrying `filePath` and `content`) passes validation, fans out through
`processBulkOperation`, and its aggregate satisfies `totalFiles = k`,
`successCount + errorCount = k`, every input index appearing exactly once
across `results ++ errors`, success entries carrying a `result` and failure
entries carrying `error` and `type`; an empty array, a non-array `files`, a
length over 50, or a missing required field rejects the whole batch. -/
theorem c8_bulk_accounting (env : Env) (st : FSState) (items : List FileItem)
    (flds : FileItem)
    (h1 : 1 ≤ items.length) (h2 : items.length ≤ 50)
    (h3 : ∀ it ∈ items, it.filePath.isSome = true ∧ it.content.isSome = true) :
    validateBulkPayload ⟨.arr items, flds⟩ true = .ok true ∧
    createOp env st ⟨.arr items, flds⟩ =
      ((processBulkOperation
          (fun s it => createSingle env s { it with overwrite := flds.overwrite })
          st items).1,
        .ok (.bulk (processBulkOperation
          (fun s it => createSingle env s { it with overwrite := flds.overwrite })
          st items).2)) ∧
    (∀ agg, agg = (processBulkOperation
        (fun s it => createSingle env s { it with overwrite := flds.overwrite })
        st items).2 →
      agg.totalFiles = items.length ∧
      agg.successCount + agg.errorCount = items.length ∧
      (agg.results.map (fun o => o.index) ++ agg.errors.map (fun o => o.index)).Perm
        (List.range items.length) ∧
      (∀ o ∈ agg.results, o.success = true ∧ o.result.isSome = true ∧ o.error = none) ∧
      (∀ o ∈ agg.errors,
        o.success = false ∧ o.error.isSome = true ∧ o.etype.isSome = true)) ∧
    validateBulkPayload ⟨.notArray, flds⟩ true = .error .filesNotArray ∧
    validateBulkPayload ⟨.arr [], flds⟩ true = .error .filesEmpty ∧
    (∀ l : List FileItem, 50 < l.length →
      validateBulkPayload ⟨.arr l, flds⟩ true = .error .tooManyFiles) ∧
    (∀ l : List FileItem, (∃ it ∈ l, it.filePath = none ∨ it.content = none) →
      (validateBulkPayload ⟨.arr l, flds⟩ true).isOk = false) := by
  have h0 : (items.length == 0) = false := by
    simp only [beq_eq_false_iff_ne]
    omega
  have h50 : decide (items.length > 50) = false := by
    simp only [decide_eq_false_iff_not]
    omega
  have hall : items.all (checkItem true) = true := by
    rw [List.all_eq_true]
    intro it hit
    unfold checkItem
    simp [(h3 it hit).1, (h3 it hit).2]
  have hval : validateBulkPayload ⟨.arr items, flds⟩ true = .ok true := by
    simp [validateBulkPayload, h0, h50, hall]
  refine ⟨hval, ?_, ?_, rfl, by simp [validateBulkPayload], ?_, ?_⟩
  · unfold createOp
    rw [hval]
  · intro agg hagg
    subst hagg
    simp only [processBulkOperation]
    obtain ⟨ht, hc⟩ := mkBulkAgg_counts items.length
      (runItems (fun s it => createSingle env s { it with overwrite := flds.overwrite })
        st items.enum).2
    refine ⟨ht, ?_, ?_, ?_, ?_⟩
    · rw [hc, runItems_length, List.enum_length]
    · have hp := mkBulkAgg_index_perm items.length
        (runItems (fun s it => createSingle env s { it with overwrite := flds.overwrite })
          st items.enum).2
      rw [runItems_map_index, List.enum_map_fst] at hp
      exact hp
    · intro o ho
      simp only [mkBulkAgg, List.mem_filter] at ho
      have hshape := runItems_outcome_shape
        (fun s it => createSingle env s { it with overwrite := flds.overwrite })
        items.enum st o ho.1
      exact ⟨ho.2, (hshape.1 ho.2).1, (hshape.1 ho.2).2.1⟩
    · intro o ho
      simp only [mkBulkAgg, List.mem_filter, Bool.not_eq_true'] at ho
      have hshape := runItems_outcome_shape
        (fun s it => createSingle env s { it with overwrite := flds.overwrite })
        items.enum st o ho.1
      exact ⟨ho.2, (hshape.2 ho.2).2.1, (hshape.2 ho.2).2.2⟩
  · intro l hl
    have hl0 : (l.length == 0) = false := by
      simp only [beq_eq_false_iff_ne]
      omega
    have hl50 : decide (l.length > 50) = true := by
      simp only [decide_eq_true_eq]
      omega
    simp [validateBulkPayload, hl0, hl50]
  · intro l hbad
    obtain ⟨it, hit, hmiss⟩ := hbad
    cases hl0 : (l.length == 0) with
    | true => simp [validateBulkPayload, hl0, Except.isOk, Except.toBool]
    | false =>
      cases hl50 : decide (l.length > 50) with
      | true => simp [validateBulkPayload, hl0, hl50, Except.isOk, Except.toBool]
      | false =>
        have hcheck : checkItem true it = false := by
          unfold checkItem
          rcases hmiss with hh | hh <;> simp [hh]
        cases hA : l.all (checkItem true) with
        | true =>
          have := List.all_eq_true.mp hA it hit
          rw [hcheck] at this
          exact absurd this (by simp)
        | false => simp [validateBulkPayload, hl0, hl50, hA, Except.isOk, Except.toBool]

/-! ## Backup store lemmas (C6, C7) -/

theorem isPrefixOf_append_self (l r : List Char) : l.isPrefixOf (l ++ r) = true := by
  rw [List.isPrefixOf_iff_prefix]
  exact List.prefix_append l r

theorem isSuffixOf_append_self (x l : List Char) : l.isSuffixOf (x ++ l) = true := by
  rw [List.isSuffixOf_iff_suffix]
  exact List.suffix_append x l

/-- A blob entry with base `b` and newline-free context and timestamp matches
the cleanup regex built from `b`. -/
theorem blobEntry_matches (b : String) (e : BackupEntry)
    (hb : e.base = b) (hk : e.kind = .blob)
    (hc : noNL e.ctx = true) (ht : noNL e.ts = true) :
    cleanupMatches b e = true := by
  have hn : nameChars e =
      (e.base.data ++ ['.']) ++ (e.ctx.data ++ ['.'] ++ e.ts.data ++ bakChars) := by
    simp [nameChars, hk, List.append_assoc]
  have hrest : e.ctx.data ++ ['.'] ++ e.ts.data ++ bakChars =
      (e.ctx.data ++ ['.'] ++ e.ts.data) ++ bakChars := by
    simp [List.append_assoc]
  unfold cleanupMatches
  rw [hn, hb]
  have hpre : (b.data ++ ['.']).isPrefixOf
      ((b.data ++ ['.']) ++ (e.ctx.data ++ ['.'] ++ e.ts.data ++ bakChars)) = true :=
    isPrefixOf_append_self _ _
  have hsuf : bakChars.isSuffixOf
      ((b.data ++ ['.']) ++ (e.ctx.data ++ ['.'] ++ e.ts.data ++ bakChars)) = true := by
    rw [hrest, ← List.append_assoc]
    exact isSuffixOf_append_self _ _
  have hlen : (b.data ++ ['.']).length + 7 ≤
      ((b.data ++ ['.']) ++ (e.ctx.data ++ ['.'] ++ e.ts.data ++ bakChars)).length := by
    simp [List.length_append, bakChars]
    omega
  have hdrop : ((b.data ++ ['.']) ++
      (e.ctx.data ++ ['.'] ++ e.ts.data ++ bakChars)).drop (b.data ++ ['.']).length =
      e.ctx.data ++ ['.'] ++ e.ts.data ++ bakChars := List.drop_left _ _
  have hmidlen : ((b.data ++ ['.']) ++
      (e.ctx.data ++ ['.'] ++ e.ts.data ++ bakChars)).length -
      (b.data ++ ['.']).length - 7 = (e.ctx.data ++ ['.'] ++ e.ts.data).length := by
    simp [List.length_append, bakChars]
    omega
  have htake : (e.ctx.data ++ ['.'] ++ e.ts.data ++ bakChars).take
      (e.ctx.data ++ ['.'] ++ e.ts.data).length = e.ctx.data ++ ['.'] ++ e.ts.data := by
    rw [hrest]
    exact List.take_left _ _
  simp only [hpre, hsuf, hdrop, hmidlen, htake, Bool.true_and, Bool.and_eq_true,
    decide_eq_true_eq]
  refine ⟨hlen, ?_⟩
  unfold noNL at hc ht
  simp [List.all_append, hc, ht]

/-- A `.meta` sidecar never matches the cleanup regex (its name does not end
in `.backup`). -/
theorem metaEntry_not_matches (b : String) (e : BackupEntry) (hk : e.kind = .meta) :
    cleanupMatches b e = false := by
  have hn : nameChars e =
      (e.base.data ++ ['.'] ++ e.ctx.data ++ ['.'] ++ e.ts.data ++ bakChars) ++ metaChars := by
    simp [nameChars, hk]
  have hsuf : bakChars.isSuffixOf (nameChars e) = false := by
    rw [hn, Bool.eq_false_iff]
    intro hcon
    rw [List.isSuffixOf_iff_suffix] at hcon
    obtain ⟨t, ht⟩ := hcon
    have h1 := congrArg List.reverse ht
    rw [List.reverse_append, List.reverse_append] at h1
    have h2 : bakChars.reverse = 'p' :: ['u', 'k', 'c', 'a', 'b', '.'] := rfl
    have h3 : metaChars.reverse = 'a' :: ['t', 'e', 'm', '.'] := rfl
    rw [h2, h3] at h1
    simp at h1
  unfold cleanupMatches
  simp [hsuf]

theorem insertDesc_perm (e : BackupEntry) (l : List BackupEntry) :
    (insertDesc e l).Perm (e :: l) := by
  induction l with
  | nil => exact List.Perm.refl _
  | cons x xs ih =>
    unfold insertDesc
    split
    · exact List.Perm.refl _
    · exact (List.Perm.cons x ih).trans (List.Perm.swap e x xs)

theorem sortByMtimeDesc_perm (l : List BackupEntry) : (sortByMtimeDesc l).Perm l := by
  induction l with
  | nil => exact List.Perm.refl _
  | cons x xs ih =>
    unfold sortByMtimeDesc List.foldr
    exact (insertDesc_perm x (xs.foldr insertDesc [])).trans (List.Perm.cons x ih)

theorem insertDesc_pairwise (e : BackupEntry) (l : List BackupEntry)
    (h : List.Pairwise (fun a b => b.mtime ≤ a.mtime) l) :
    List.Pairwise (fun a b => b.mtime ≤ a.mtime) (insertDesc e l) := by
  induction l with
  | nil => simp [insertDesc]
  | cons x xs ih =>
    obtain ⟨hx, hxs⟩ := List.pairwise_cons.mp h
    unfold insertDesc
    split
    · rename_i hle
      refine List.Pairwise.cons ?_ h
      intro y hy
      rcases List.mem_cons.mp hy with rfl | hy'
      · exact hle
      · exact le_trans (hx y hy') hle
    · rename_i hgt
      refine List.Pairwise.cons ?_ (ih hxs)
      intro y hy
      rcases List.mem_cons.mp ((insertDesc_perm e xs).mem_iff.mp hy) with rfl | hy'
      · exact le_of_lt (Nat.lt_of_not_le hgt)
      · exact hx y hy'

theorem sortByMtimeDesc_pairwise (l : List BackupEntry) :
    List.Pairwise (fun a b => b.mtime ≤ a.mtime) (sortByMtimeDesc l) := by
  induction l with
  | nil => simp [sortByMtimeDesc]
  | cons x xs ih => exact insertDesc_pairwise x _ ih

theorem countP_and_not (p q : α → Bool) (l : List α) :
    l.countP (fun a => p a && q a) + l.countP (fun a => p a && !q a) = l.countP p := by
  induction l with
  | nil => rfl
  | cons x xs ih =>
    simp only [List.countP_cons]
    cases hp : p x <;> cases hq : q x <;> simp [hp, hq] <;> omega

theorem countP_cleanup_le (p : BackupEntry → Bool) (base : String)
    (dir : List BackupEntry) :
    (cleanupOldBackups base dir).countP p ≤ dir.countP p := by
  unfold cleanupOldBackups
  rw [List.countP_append]
  have h1 : (dir.filter (fun e => !cleanupMatches base e)).countP p =
      dir.countP (fun a => p a && !cleanupMatches base a) :=
    List.countP_filter p _ dir
  have h2 : ((sortByMtimeDesc (dir.filter (cleanupMatches base))).take maxBackups).countP p ≤
      dir.countP (fun a => p a && cleanupMatches base a) := by
    calc ((sortByMtimeDesc (dir.filter (cleanupMatches base))).take maxBackups).countP p ≤
        (sortByMtimeDesc (dir.filter (cleanupMatches base))).countP p :=
          (List.take_sublist _ _).countP_le p
      _ = (dir.filter (cleanupMatches base)).countP p :=
          (sortByMtimeDesc_perm _).countP_eq p
      _ = dir.countP (fun a => p a && cleanupMatches base a) := List.countP_filter p _ dir
  calc (dir.filter (fun e => !cleanupMatches base e)).countP p +
      ((sortByMtimeDesc (dir.filter (cleanupMatches base))).take maxBackups).countP p ≤
      dir.countP (fun a => p a && !cleanupMatches base a) +
        dir.countP (fun a => p a && cleanupMatches base a) := by
        rw [h1]; exact Nat.add_le_add_left h2 _
    _ = dir.countP p := by rw [Nat.add_comm]; exact countP_and_not p _ dir

theorem countMatch_cleanup_le (base : String) (dir : List BackupEntry) :
    (cleanupOldBackups base dir).countP (cleanupMatches base) ≤ maxBackups := by
  unfold cleanupOldBackups
  rw [List.countP_append]
  have h1 : (dir.filter (fun e => !cleanupMatches base e)).countP (cleanupMatches base) = 0 := by
    rw [List.countP_filter]
    have hf : (fun a : BackupEntry => cleanupMatches base a && !cleanupMatches base a) =
        fun _ : BackupEntry => false := by
      funext a
      cases cleanupMatches base a <;> simp
    rw [hf]
    simp
  have h2 : ((sortByMtimeDesc (dir.filter (cleanupMatches base))).take maxBackups).countP
      (cleanupMatches base) ≤ maxBackups :=
    le_trans (List.countP_le_length _) (List.length_take_le _ _)
  omega

theorem mem_of_mem_cleanup (base : String) (dir : List BackupEntry) (e : BackupEntry)
    (h : e ∈ cleanupOldBackups base dir) : e ∈ dir := by
  unfold cleanupOldBackups at h
  rw [List.mem_append] at h
  rcases h with h | h
  · exact (List.mem_filter.mp h).1
  · have h2 := (List.take_sublist _ _).mem h
    have h3 := (sortByMtimeDesc_perm _).mem_iff.mp h2
    exact (List.mem_filter.mp h3).1

/-- When at most `maxBackups` entries match the base pattern, the cleanup
deletes nothing. -/
theorem cleanup_keeps_all (base : String) (dir : List BackupEntry)
    (h : (dir.filter (cleanupMatches base)).length ≤ maxBackups) :
    ∀ e ∈ dir, e ∈ cleanupOldBackups base dir := by
  intro e he
  unfold cleanupOldBackups
  rw [List.mem_append]
  cases hm : cleanupMatches base e with
  | false =>
    left
    exact List.mem_filter.mpr ⟨he, by simp [hm]⟩
  | true =>
    right
    rw [List.take_of_length_le (le_trans (le_of_eq (sortByMtimeDesc_perm _).length_eq) h)]
    exact (sortByMtimeDesc_perm _).mem_iff.mpr (List.mem_filter.mpr ⟨he, hm⟩)

/-- An entry that does not match the base pattern always survives the
cleanup. -/
theorem cleanup_keeps_nonmatching (base : String) (dir : List BackupEntry)
    (e : BackupEntry) (he : e ∈ dir) (hm : cleanupMatches base e = false) :
    e ∈ cleanupOldBackups base dir := by
  unfold cleanupOldBackups
  rw [List.mem_append]
  left
  exact List.mem_filter.mpr ⟨he, by simp [hm]⟩

/-- A matching entry strictly newer than every other matching entry survives
the cleanup, whatever the directory's size: the retention keeps the
`maxBackups` most recent matches, and the newest match is among them. -/
theorem cleanup_keeps_newest (base : String) (dir : List BackupEntry) (e : BackupEntry)
    (he : e ∈ dir) (hm : cleanupMatches base e = true)
    (hmax : ∀ x ∈ dir, cleanupMatches base x = true → x ≠ e → x.mtime < e.mtime) :
    e ∈ cleanupOldBackups base dir := by
  unfold cleanupOldBackups
  rw [List.mem_append]
  right
  set s := sortByMtimeDesc (dir.filter (cleanupMatches base)) with hs
  have hes : e ∈ s := by
    rw [hs]
    exact (sortByMtimeDesc_perm _).mem_iff.mpr (List.mem_filter.mpr ⟨he, hm⟩)
  by_cases htk : e ∈ s.take maxBackups
  · exact htk
  · exfalso
    have hed : e ∈ s.drop maxBackups := by
      have hsplit : e ∈ s.take maxBackups ++ s.drop maxBackups := by
        rw [List.take_append_drop]
        exact hes
      rcases List.mem_append.mp hsplit with h | h
      · exact absurd h htk
      · exact h
    have hlen : maxBackups ≤ s.length := by
      by_contra hlt
      push_neg at hlt
      rw [List.drop_eq_nil_of_le (le_of_lt hlt)] at hed
      exact absurd hed (List.not_mem_nil e)
    have htklen : (s.take maxBackups).length = maxBackups := by
      rw [List.length_take]
      exact Nat.min_eq_left hlen
    have htkne : s.take maxBackups ≠ [] := by
      intro hnil
      rw [hnil] at htklen
      simp [maxBackups] at htklen
    obtain ⟨x, hx⟩ := List.exists_mem_of_ne_nil _ htkne
    have hxs : x ∈ s := (List.take_sublist _ _).mem hx
    have hxf : x ∈ dir ∧ cleanupMatches base x = true := by
      rw [hs] at hxs
      have h3 := (sortByMtimeDesc_perm _).mem_iff.mp hxs
      exact ⟨(List.mem_filter.mp h3).1, (List.mem_filter.mp h3).2⟩
    have hxe : x ≠ e := by
      intro hxeq
      rw [hxeq] at hx
      exact htk hx
    have hlt := hmax x hxf.1 hxf.2 hxe
    have hp := sortByMtimeDesc_pairwise (dir.filter (cleanupMatches base))
    rw [← hs, ← List.take_append_drop maxBackups s, List.pairwise_append] at hp
    exact absurd (hp.2.2 x hx e hed) (Nat.not_le_of_lt hlt)

/-- Invariant of the backup directory: generated entries carry newline-free
context and timestamp strings, and each base name owns at most `maxBackups`
retained blobs. -/
def backupInv (dir : List BackupEntry) : Prop :=
  (∀ e ∈ dir, noNL e.ctx = true ∧ noNL e.ts = true) ∧
  ∀ b : String, countOwn b dir ≤ maxBackups

theorem snapStep_inv (md5 : String → String) (ev : SnapEvent) (dir : List BackupEntry)
    (clk : Nat) (hdir : backupInv dir)
    (hctx : noNL ev.ctx = true) (hts : noNL ev.ts = true) :
    backupInv (snapStep md5 ev dir clk) := by
  have hnl : ∀ e ∈ snapStep md5 ev dir clk, noNL e.ctx = true ∧ noNL e.ts = true := by
    intro e he
    have hmem := mem_of_mem_cleanup _ _ _ he
    rw [List.mem_append] at hmem
    rcases hmem with h | h
    · exact hdir.1 e h
    · rcases List.mem_cons.mp h with rfl | h'
      · exact ⟨hctx, hts⟩
      · rcases List.mem_cons.mp h' with rfl | h''
        · exact ⟨hctx, hts⟩
        · simp at h''
  refine ⟨hnl, ?_⟩
  intro b
  by_cases hb : b = ev.base
  · rw [hb]
    have hmono : countOwn ev.base (snapStep md5 ev dir clk) ≤
        (snapStep md5 ev dir clk).countP (cleanupMatches ev.base) := by
      unfold countOwn
      apply List.countP_mono_left
      intro e he hown
      simp only [Bool.and_eq_true, beq_iff_eq] at hown
      exact blobEntry_matches ev.base e hown.1 hown.2 (hnl e he).1 (hnl e he).2
    exact le_trans hmono (countMatch_cleanup_le ev.base _)
  · have hle := countP_cleanup_le
      (fun e => e.base == b && e.kind == BKind.blob) ev.base
      (dir ++ [mkBlobEntry ev.base ev.ctx ev.ts ev.bytes clk,
        mkMetaEntry md5 ev.base ev.base ev.ctx ev.ts ev.bytes clk])
    have hnew : countOwn b (dir ++ [mkBlobEntry ev.base ev.ctx ev.ts ev.bytes clk,
        mkMetaEntry md5 ev.base ev.base ev.ctx ev.ts ev.bytes clk]) = countOwn b dir := by
      unfold countOwn
      rw [List.countP_append]
      have hbb : (ev.base == b) = false := beq_eq_false_iff_ne.mpr (fun hh => hb hh.symm)
      simp [List.countP_cons, mkBlobEntry, mkMetaEntry, hbb]
    calc countOwn b (snapStep md5 ev dir clk) ≤
        countOwn b (dir ++ [mkBlobEntry ev.base ev.ctx ev.ts ev.bytes clk,
          mkMetaEntry md5 ev.base ev.base ev.ctx ev.ts ev.bytes clk]) := hle
      _ = countOwn b dir := hnew
      _ ≤ maxBackups := hdir.2 b

theorem snapRun_inv (md5 : String → String) :
    ∀ (evs : List SnapEvent) (dir : List BackupEntry) (clk : Nat),
      (∀ ev ∈ evs, noNL ev.ctx = true ∧ noNL ev.ts = true) →
      backupInv dir → backupInv (snapRun md5 evs (dir, clk)).1 := by
  intro evs
  induction evs with
  | nil => intro dir clk _ h; exact h
  | cons ev rest ih =>
    intro dir clk hev h
    exact ih _ _ (fun e he => hev e (by simp [he]))
      (snapStep_inv md5 ev dir clk h (hev ev (by simp)).1 (hev ev (by simp)).2)

/-- Claim C7: starting from an empty backup directory, after any sequence of
successful snapshots (each appending a blob and meta and running the
per-base cleanup), the number of retained backup blobs snapshotted from any
base name `b` is at most `maxBackups = 10`; moreover each cleanup retains
the `maxBackups` most recent matching entries, every deleted matching entry
being at least as old as every retained one. -/
theorem c7_bounded_retention (md5 : String → String) (evs : List SnapEvent)
    (hev : ∀ ev ∈ evs, noNL ev.ctx = true ∧ noNL ev.ts = true) (b : String) :
    countOwn b (snapRun md5 evs ([], 0)).1 ≤ maxBackups ∧
    (∀ dir : List BackupEntry,
      ∀ e1 ∈ (sortByMtimeDesc (dir.filter (cleanupMatches b))).drop maxBackups,
      ∀ e2 ∈ (sortByMtimeDesc (dir.filter (cleanupMatches b))).take maxBackups,
        e1.mtime ≤ e2.mtime) := by
  constructor
  · exact (snapRun_inv md5 evs [] 0 hev
      ⟨by simp, fun b' => by simp [countOwn]⟩).2 b
  · intro dir e1 h1 e2 h2
    have hp := sortByMtimeDesc_pairwise (dir.filter (cleanupMatches b))
    rw [← List.take_append_drop maxBackups (sortByMtimeDesc (dir.filter (cleanupMatches b))),
      List.pairwise_append] at hp
    exact hp.2.2 e2 h2 e1 h1

theorem lookup_setFile (st : FSState) (full c : String) :
    (setFile st full c).files.lookup full = some c := by
  simp [setFile, List.lookup]

theorem lookup_filter_ne (l : List (String × String)) (k : String) :
    (l.filter (fun kv => kv.1 != k)).lookup k = none := by
  induction l with
  | nil => rfl
  | cons kv rest ih =>
    by_cases h : kv.1 = k
    · have h1 : (kv.1 != k) = false := by simp [h]
      simp [List.filter_cons, h1, ih]
    · have h1 : (kv.1 != k) = true := by simp [h]
      have h2 : (k == kv.1) = false := beq_eq_false_iff_ne.mpr (fun hh => h hh.symm)
      simp [List.filter_cons, h1, List.lookup, h2, ih]

/-- Claim C6: for an existing file that is protected or classified
SYSTEM_FILE, `update` (when the classifier and credential gates let it
reach the write) and `delete` (under its own force/protection guard, with
no classifier or credential gate at all) snapshot before mutating: after
the mutation the backup directory holds a blob with the pre-mutation bytes
(taken at the pre-mutation clock) and a `.meta` sidecar whose hash is the
MD5 of those bytes — the fresh blob is the newest match, so retention keeps
it even at the cap; and when the snapshot copy fails, the operation fails
with `backupFailed` and the state is unchanged — the mutation does not
proceed. -/
theorem c6_backup_before_mutation (env : Env) (st : FSState) (p c oldBytes : String)
    (cb : Option Bool)
    (hpnn : (p == "") = false)
    (hex : st.files.lookup (resolveRender env.W p) = some oldBytes)
    (hprot : isProtectedFile (resolveRender env.W p) = true ∨
      (analyzeFilePath p).level = .SYSTEM_FILE)
    (hpath : startsWithS (resolveRender env.W p) (renderAbs env.W) = true)
    (hmt : ∀ e ∈ st.backups, e.mtime < st.clock)
    (hnl : noNL (env.tsName st.clock) = true) :
    ((analyzeFilePath p).allowed = true → isCredentialFile p = false →
      (env.copyOk = true →
        (updateSingle env st ⟨some p, some c, none, cb⟩).2.isOk = true ∧
        (updateSingle env st ⟨some p, some c, none, cb⟩).1.files.lookup
          (resolveRender env.W p) = some c ∧
        (∃ e ∈ (updateSingle env st ⟨some p, some c, none, cb⟩).1.backups,
          e.kind = .blob ∧ e.base = basenameStr (resolveRender env.W p) ∧
          e.ctx = "update" ∧ e.bytes = oldBytes ∧ e.mtime = st.clock) ∧
        (∃ e ∈ (updateSingle env st ⟨some p, some c, none, cb⟩).1.backups,
          e.kind = .meta ∧ e.base = basenameStr (resolveRender env.W p) ∧
          e.hash = env.md5 oldBytes ∧ e.size = oldBytes.length)) ∧
      (env.copyOk = false →
        updateSingle env st ⟨some p, some c, none, cb⟩ =
          (st, .error (.backupFailed (resolveRender env.W p))))) ∧
    (∀ force : Option Bool,
      (isProtectedFile (resolveRender env.W p) && !(force.getD false)) = false →
      (env.copyOk = true →
        (deleteOp env st ⟨some p, force⟩).2.isOk = true ∧
        (deleteOp env st ⟨some p, force⟩).1.files.lookup (resolveRender env.W p) = none ∧
        (∃ e ∈ (deleteOp env st ⟨some p, force⟩).1.backups,
          e.kind = .blob ∧ e.base = basenameStr (resolveRender env.W p) ∧
          e.ctx = "legacy" ∧ e.bytes = oldBytes ∧ e.mtime = st.clock) ∧
        (∃ e ∈ (deleteOp env st ⟨some p, force⟩).1.backups,
          e.kind = .meta ∧ e.base = basenameStr (resolveRender env.W p) ∧
          e.hash = env.md5 oldBytes ∧ e.size = oldBytes.length)) ∧
      (env.copyOk = false →
        deleteOp env st ⟨some p, force⟩ =
          (st, .error (.backupFailed (resolveRender env.W p))))) := by
  have hvp : validateFilePathE env p = .ok (resolveRender env.W p) := by
    simp [validateFilePathE, hpath]
  have hfse : fsExists st (resolveRender env.W p) = true := by
    simp [fsExists, hex]
  have hkeep : ∀ ctx : String, noNL ctx = true →
      mkBlobEntry (basenameStr (resolveRender env.W p)) ctx (env.tsName st.clock)
          oldBytes st.clock ∈
        cleanupOldBackups (basenameStr (resolveRender env.W p))
          (st.backups ++
            [mkBlobEntry (basenameStr (resolveRender env.W p)) ctx (env.tsName st.clock)
              oldBytes st.clock,
             mkMetaEntry env.md5 (resolveRender env.W p)
               (basenameStr (resolveRender env.W p)) ctx (env.tsName st.clock) oldBytes
               st.clock]) ∧
      mkMetaEntry env.md5 (resolveRender env.W p) (basenameStr (resolveRender env.W p))
          ctx (env.tsName st.clock) oldBytes st.clock ∈
        cleanupOldBackups (basenameStr (resolveRender env.W p))
          (st.backups ++
            [mkBlobEntry (basenameStr (resolveRender env.W p)) ctx (env.tsName st.clock)
              oldBytes st.clock,
             mkMetaEntry env.md5 (resolveRender env.W p)
               (basenameStr (resolveRender env.W p)) ctx (env.tsName st.clock) oldBytes
               st.clock]) := by
    intro ctx hctx
    constructor
    · apply cleanup_keeps_newest
      · simp
      · exact blobEntry_matches _ _ rfl rfl hctx hnl
      · intro x hx hxm hxne
        rcases List.mem_append.mp hx with hxb | hxlm
        · exact hmt x hxb
        · rcases List.mem_cons.mp hxlm with hxeq | hxm2
          · exact absurd hxeq hxne
          · rcases List.mem_cons.mp hxm2 with hxeq2 | hnil
            · rw [hxeq2, metaEntry_not_matches _ _ rfl] at hxm
              exact absurd hxm Bool.false_ne_true
            · exact absurd hnil (List.not_mem_nil x)
    · apply cleanup_keeps_nonmatching
      · simp
      · exact metaEntry_not_matches _ _ rfl
  refine ⟨?_, ?_⟩
  · intro hall hcred
    have hvfoU : validateFileOperation p "update" = .ok (analyzeFilePath p) :=
      validateFileOperation_allowed p "update" hall
    have hcredok : validateCredentialAccess p "update" = .ok () := by
      simp [validateCredentialAccess, hcred]
    have hcondP : (cb.getD true = true ∨ isProtectedFile (resolveRender env.W p) = true) ∨
        (analyzeFilePath p).level = PathLevel.SYSTEM_FILE := by
      rcases hprot with h | h
      · exact Or.inl (Or.inr h)
      · exact Or.inr h
    refine ⟨?_, ?_⟩
    · intro hcopy
      have hsb : createSmartBackup env st (resolveRender env.W p) "update" =
          ({ st with
              backups := cleanupOldBackups (basenameStr (resolveRender env.W p))
                (st.backups ++
                  [mkBlobEntry (basenameStr (resolveRender env.W p)) "update"
                    (env.tsName st.clock) oldBytes st.clock,
                   mkMetaEntry env.md5 (resolveRender env.W p)
                     (basenameStr (resolveRender env.W p)) "update" (env.tsName st.clock)
                     oldBytes st.clock]),
              clock := st.clock + 1 },
           .ok (some (backupFileName (basenameStr (resolveRender env.W p)) "update"
             (env.tsName st.clock)))) := by
        simp [createSmartBackup, hex, hcopy]
      have hupd : updateSingle env st ⟨some p, some c, none, cb⟩ =
          (setFile
            { st with
              backups := cleanupOldBackups (basenameStr (resolveRender env.W p))
                (st.backups ++
                  [mkBlobEntry (basenameStr (resolveRender env.W p)) "update"
                    (env.tsName st.clock) oldBytes st.clock,
                   mkMetaEntry env.md5 (resolveRender env.W p)
                     (basenameStr (resolveRender env.W p)) "update" (env.tsName st.clock)
                     oldBytes st.clock]),
              clock := st.clock + 1 } (resolveRender env.W p) c,
           .ok ⟨p, resolveRender env.W p, c.length,
             some (backupFileName (basenameStr (resolveRender env.W p)) "update"
               (env.tsName st.clock)),
             isProtectedFile (resolveRender env.W p)⟩) := by
        simp [updateSingle, hvfoU, hcredok, hvp, hfse, hcondP, hsb]
      rw [hupd]
      refine ⟨by simp [Except.isOk, Except.toBool], lookup_setFile _ _ _, ?_, ?_⟩
      · refine ⟨mkBlobEntry (basenameStr (resolveRender env.W p)) "update"
          (env.tsName st.clock) oldBytes st.clock, ?_, rfl, rfl, rfl, rfl, rfl⟩
        exact (hkeep "update" (by decide)).1
      · refine ⟨mkMetaEntry env.md5 (resolveRender env.W p)
          (basenameStr (resolveRender env.W p)) "update" (env.tsName st.clock) oldBytes
          st.clock, ?_, rfl, rfl, rfl, rfl⟩
        exact (hkeep "update" (by decide)).2
    · intro hcopy
      have hsb : createSmartBackup env st (resolveRender env.W p) "update" =
          (st, .error (.backupFailed (resolveRender env.W p))) := by
        simp [createSmartBackup, hex, hcopy]
      simp [updateSingle, hvfoU, hcredok, hvp, hfse, hcondP, hsb]
  · intro force hforce
    constructor
    · intro hcopy
      have hsb : createSmartBackup env st (resolveRender env.W p) "legacy" =
          ({ st with
              backups := cleanupOldBackups (basenameStr (resolveRender env.W p))
                (st.backups ++
                  [mkBlobEntry (basenameStr (resolveRender env.W p)) "legacy"
                    (env.tsName st.clock) oldBytes st.clock,
                   mkMetaEntry env.md5 (resolveRender env.W p)
                     (basenameStr (resolveRender env.W p)) "legacy" (env.tsName st.clock)
                     oldBytes st.clock]),
              clock := st.clock + 1 },
           .ok (some (backupFileName (basenameStr (resolveRender env.W p)) "legacy"
             (env.tsName st.clock)))) := by
        simp [createSmartBackup, hex, hcopy]
      have hdel : deleteOp env st ⟨some p, force⟩ =
          (removeFile
            { st with
              backups := cleanupOldBackups (basenameStr (resolveRender env.W p))
                (st.backups ++
                  [mkBlobEntry (basenameStr (resolveRender env.W p)) "legacy"
                    (env.tsName st.clock) oldBytes st.clock,
                   mkMetaEntry env.md5 (resolveRender env.W p)
                     (basenameStr (resolveRender env.W p)) "legacy" (env.tsName st.clock)
                     oldBytes st.clock]),
              clock := st.clock + 1 } (resolveRender env.W p),
           .ok ⟨p, resolveRender env.W p,
             some (backupFileName (basenameStr (resolveRender env.W p)) "legacy"
               (env.tsName st.clock)),
             isProtectedFile (resolveRender env.W p)⟩) := by
        simp [deleteOp, hpnn, hvp, hfse, hforce, hsb]
      rw [hdel]
      refine ⟨by simp [Except.isOk, Except.toBool], ?_, ?_, ?_⟩
      · exact lookup_filter_ne _ _
      · refine ⟨mkBlobEntry (basenameStr (resolveRender env.W p)) "legacy"
          (env.tsName st.clock) oldBytes st.clock, ?_, rfl, rfl, rfl, rfl, rfl⟩
        exact (hkeep "legacy" (by decide)).1
      · refine ⟨mkMetaEntry env.md5 (resolveRender env.W p)
          (basenameStr (resolveRender env.W p)) "legacy" (env.tsName st.clock) oldBytes
          st.clock, ?_, rfl, rfl, rfl, rfl⟩
        exact (hkeep "legacy" (by decide)).2
    · intro hcopy
      have hsb : createSmartBackup env st (resolveRender env.W p) "legacy" =
          (st, .error (.backupFailed (resolveRender env.W p))) := by
        simp [createSmartBackup, hex, hcopy]
      simp [deleteOp, hpnn, hvp, hfse, hforce, hsb]

theorem c6_backup_before_mutation_witness :
    (wEnv.copyOk = true) ∧
    ((updateSingle wEnv { files := [("/w/notes.cfg", "old")] }
      ⟨some "notes.cfg", some "new", none, none⟩).2.isOk = true ∧
     (updateSingle wEnv { files := [("/w/notes.cfg", "old")] }
       ⟨some "notes.cfg", some "new", none, none⟩).1.files.lookup
         (resolveRender wEnv.W "notes.cfg") = some "new" ∧
     (∃ e ∈ (updateSingle wEnv { files := [("/w/notes.cfg", "old")] }
         ⟨some "notes.cfg", some "new", none, none⟩).1.backups,
       e.kind = .blob ∧ e.base = basenameStr (resolveRender wEnv.W "notes.cfg") ∧
       e.ctx = "update" ∧ e.bytes = "old" ∧ e.mtime = (0 : Nat)) ∧
     (∃ e ∈ (updateSingle wEnv { files := [("/w/notes.cfg", "old")] }
         ⟨some "notes.cfg", some "new", none, none⟩).1.backups,
       e.kind = .meta ∧ e.base = basenameStr (resolveRender wEnv.W "notes.cfg") ∧
       e.hash = wEnv.md5 "old" ∧ e.size = "old".length)) ∧
    ((deleteOp wEnv { files := [("/w/.env", "secret")] }
        ⟨some ".env", some true⟩).2.isOk = true ∧
     (deleteOp wEnv { files := [("/w/.env", "secret")] }
        ⟨some ".env", some true⟩).1.files.lookup (resolveRender wEnv.W ".env") = none ∧
     (∃ e ∈ (deleteOp wEnv { files := [("/w/.env", "secret")] }
         ⟨some ".env", some true⟩).1.backups,
       e.kind = .blob ∧ e.base = basenameStr (resolveRender wEnv.W ".env") ∧
       e.ctx = "legacy" ∧ e.bytes = "secret" ∧ e.mtime = (0 : Nat)) ∧
     (∃ e ∈ (deleteOp wEnv { files := [("/w/.env", "secret")] }
         ⟨some ".env", some true⟩).1.backups,
       e.kind = .meta ∧ e.base = basenameStr (resolveRender wEnv.W ".env") ∧
       e.hash = wEnv.md5 "secret" ∧ e.size = "secret".length)) :=
  ⟨rfl,
   (c6_backup_before_mutation wEnv { files := [("/w/notes.cfg", "old")] }
      "notes.cfg" "new" "old" none (by decide) (by decide)
      (Or.inr (by decide)) (by decide) (by simp) (by decide)).1
     (by decide) (by decide) |>.1 rfl,
   ((c6_backup_before_mutation wEnv { files := [("/w/.env", "secret")] }
      ".env" "" "secret" none (by decide) (by decide)
      (Or.inl (by decide)) (by decide) (by simp) (by decide)).2
     (some true) (by decide)).1 rfl⟩

theorem c7_bounded_retention_witness :
    (∀ ev ∈ [(⟨"a.txt", "update", "T1", "x"⟩ : SnapEvent)],
      noNL ev.ctx = true ∧ noNL ev.ts = true) ∧
    countOwn "a.txt"
      (snapRun (fun s => s) [⟨"a.txt", "update", "T1", "x"⟩] ([], 0)).1 ≤ maxBackups :=
  ⟨by decide,
   (c7_bounded_retention (fun s => s) [⟨"a.txt", "update", "T1", "x"⟩] (by decide) "a.txt").1⟩

theorem c8_bulk_accounting_witness :
    validateBulkPayload
      ⟨.arr [⟨some "src/a.txt", some "A", none, none⟩,
        ⟨some "keyboard_utils/x.conf", some "B", none, none⟩], {}⟩ true = .ok true :=
  (c8_bulk_accounting wEnv {}
    [⟨some "src/a.txt", some "A", none, none⟩,
     ⟨some "keyboard_utils/x.conf", some "B", none, none⟩] {}
    (by decide) (by decide) (by decide)).1

end S2P

